import Mathlib

/-!
Verification development for the `rustrace` path tracer.

The numeric model: every `f32` of the source is represented by `EF`, an
exact-rational model of IEEE-754 binary32 that keeps the special values
`+inf`, `-inf` and NaN explicit but does not model rounding or the sign of
zero.  All arithmetic the claims depend on (sign tests, comparisons,
division by zero producing infinities, `0/0` producing NaN, and Rust's
NaN-dropping `f32::min`/`f32::max`) is represented exactly.  Floating-point
literals from the source (`0.0001`, `0.001`, `f32::MAX`, `PI`) are carried
as the exact rational values of the corresponding `f32` constants.
-/

namespace Rustrace

/-- Model of an IEEE-754 `f32` value: a finite value is carried exactly as a
rational (rounding is not modelled), and the special values `+∞`, `-∞` and
NaN are explicit constructors.  The sign of zero is not modelled. -/
inductive EF where
  | fin (q : ℚ)
  | pinf
  | ninf
  | nan
deriving DecidableEq

/-- IEEE negation. -/
def EF.neg : EF → EF
  | .fin q => .fin (-q)
  | .pinf => .ninf
  | .ninf => .pinf
  | .nan => .nan

/-- IEEE addition (exact on finite values). -/
def EF.add : EF → EF → EF
  | .nan, _ => .nan
  | _, .nan => .nan
  | .fin a, .fin b => .fin (a + b)
  | .fin _, .pinf => .pinf
  | .fin _, .ninf => .ninf
  | .pinf, .fin _ => .pinf
  | .ninf, .fin _ => .ninf
  | .pinf, .pinf => .pinf
  | .ninf, .ninf => .ninf
  | .pinf, .ninf => .nan
  | .ninf, .pinf => .nan

/-- IEEE subtraction, as `a + (-b)`. -/
def EF.sub (a b : EF) : EF := a.add b.neg

/-- IEEE multiplication (exact on finite values; `0 * ∞ = NaN`). -/
def EF.mul : EF → EF → EF
  | .nan, _ => .nan
  | _, .nan => .nan
  | .fin a, .fin b => .fin (a * b)
  | .fin a, .pinf => if 0 < a then .pinf else if a < 0 then .ninf else .nan
  | .fin a, .ninf => if 0 < a then .ninf else if a < 0 then .pinf else .nan
  | .pinf, .fin b => if 0 < b then .pinf else if b < 0 then .ninf else .nan
  | .ninf, .fin b => if 0 < b then .ninf else if b < 0 then .pinf else .nan
  | .pinf, .pinf => .pinf
  | .pinf, .ninf => .ninf
  | .ninf, .pinf => .ninf
  | .ninf, .ninf => .pinf

/-- IEEE division: exact on finite values, `x/0` is `±∞` for `x ≠ 0` and NaN
for `x = 0` (the sign of the zero divisor is not modelled), `x/±∞ = 0`,
`±∞/±∞ = NaN`. -/
def EF.div : EF → EF → EF
  | .nan, _ => .nan
  | _, .nan => .nan
  | .fin a, .fin b =>
    if b = 0 then (if a = 0 then .nan else if 0 < a then .pinf else .ninf)
    else .fin (a / b)
  | .fin _, .pinf => .fin 0
  | .fin _, .ninf => .fin 0
  | .pinf, .fin b => if b < 0 then .ninf else .pinf
  | .ninf, .fin b => if b < 0 then .pinf else .ninf
  | .pinf, .pinf => .nan
  | .pinf, .ninf => .nan
  | .ninf, .pinf => .nan
  | .ninf, .ninf => .nan

/-- IEEE `<` : any comparison involving NaN is false. -/
def EF.lt : EF → EF → Bool
  | .nan, _ => false
  | _, .nan => false
  | .fin a, .fin b => decide (a < b)
  | .fin _, .pinf => true
  | .fin _, .ninf => false
  | .pinf, _ => false
  | .ninf, .ninf => false
  | .ninf, _ => true

/-- IEEE `≤` : any comparison involving NaN is false. -/
def EF.le : EF → EF → Bool
  | .nan, _ => false
  | _, .nan => false
  | .fin a, .fin b => decide (a ≤ b)
  | .fin _, .pinf => true
  | .fin _, .ninf => false
  | .pinf, .pinf => true
  | .pinf, _ => false
  | .ninf, _ => true

/-- Rust `f32::min`: if one argument is NaN the other argument is returned
(`min` never returns NaN unless both arguments are NaN). -/
def EF.min : EF → EF → EF
  | .nan, b => b
  | a, .nan => a
  | .ninf, _ => .ninf
  | _, .ninf => .ninf
  | .pinf, b => b
  | a, .pinf => a
  | .fin a, .fin b => if a ≤ b then .fin a else .fin b

/-- Rust `f32::max`: if one argument is NaN the other argument is returned
(`max` never returns NaN unless both arguments are NaN). -/
def EF.max : EF → EF → EF
  | .nan, b => b
  | a, .nan => a
  | .pinf, _ => .pinf
  | _, .pinf => .pinf
  | .ninf, b => b
  | a, .ninf => a
  | .fin a, .fin b => if a ≤ b then .fin b else .fin a

/-- `f32::sqrt`, exactly representable cases only: on a nonnegative finite
value we use `Rat.sqrt`, which agrees with the real square root exactly when
the value is a perfect rational square; every concrete scene evaluated in
this development has perfect-square radicands, and every general theorem
about code that takes a square root is stated through an explicitly
quantified exact root instead. -/
def EF.sqrt : EF → EF
  | .fin q => if q < 0 then .nan else .fin (Rat.sqrt q)
  | .pinf => .pinf
  | .ninf => .nan
  | .nan => .nan

instance : Neg EF := ⟨EF.neg⟩
instance : Add EF := ⟨EF.add⟩
instance : Sub EF := ⟨EF.sub⟩
instance : Mul EF := ⟨EF.mul⟩
instance : Div EF := ⟨EF.div⟩

/-- The exact value of the `f32` literal `0.0001` used as the integrator's
`t_min` (`trace_color`). -/
def F32_HIT_EPS : ℚ := 13743895 / 2 ^ 37

/-- The exact value of the `f32` literal `0.001` used as the shadow-acne
offset in `Lambertian::scattered`. -/
def F32_SCATTER_EPS : ℚ := 8589935 / 2 ^ 33

/-- The exact value of `std::f32::MAX`. -/
def F32_MAX : ℚ := (2 ^ 24 - 1) * 2 ^ 104

/-- The exact value of `std::f32::consts::PI`. -/
def F32_PI : ℚ := 13176795 / 4194304

/-- The exact value of `std::f32::consts::FRAC_PI_2`. -/
def F32_FRAC_PI_2 : ℚ := 13176795 / 8388608

/-- `src/math/vec3.rs` / `src/vec3.rs` `Vec3`: a 3-vector of `f32`. -/
structure Vec3 where
  x : EF
  y : EF
  z : EF
deriving DecidableEq

namespace Vec3

/-- `Vec3::new`. -/
def new (x y z : EF) : Vec3 := ⟨x, y, z⟩

/-- `Vec3::rgb`: converts `0..255` channels to `0.0..1.0`. -/
def rgb (r g b : ℕ) : Vec3 :=
  ⟨.fin ((r : ℚ) / 255), .fin ((g : ℚ) / 255), .fin ((b : ℚ) / 255)⟩

/-- componentwise addition (`impl Add for Vec3`). -/
def add (a b : Vec3) : Vec3 := ⟨a.x + b.x, a.y + b.y, a.z + b.z⟩

/-- componentwise subtraction (`impl Sub for Vec3`). -/
def sub (a b : Vec3) : Vec3 := ⟨a.x - b.x, a.y - b.y, a.z - b.z⟩

/-- negation (`impl Neg for Vec3`). -/
def neg (a : Vec3) : Vec3 := ⟨-a.x, -a.y, -a.z⟩

/-- scalar multiplication (`impl Mul<f32> for Vec3` / `Mul<Vec3> for f32`). -/
def smul (k : EF) (a : Vec3) : Vec3 := ⟨k * a.x, k * a.y, k * a.z⟩

/-- componentwise multiplication (`impl Mul<Vec3> for Vec3`). -/
def mul (a b : Vec3) : Vec3 := ⟨a.x * b.x, a.y * b.y, a.z * b.z⟩

/-- scalar division (`impl Div<f32> for Vec3`). -/
def divs (a : Vec3) (k : EF) : Vec3 := ⟨a.x / k, a.y / k, a.z / k⟩

/-- `Vec3::dot`. -/
def dot (a b : Vec3) : EF := a.x * b.x + a.y * b.y + a.z * b.z

/-- `Vec3::cross`. -/
def cross (a b : Vec3) : Vec3 :=
  ⟨a.y * b.z - a.z * b.y, a.z * b.x - a.x * b.z, a.x * b.y - a.y * b.x⟩

/-- `Vec3::len_squared`. -/
def len_squared (a : Vec3) : EF := a.x * a.x + a.y * a.y + a.z * a.z

/-- `Vec3::len` (square root taken in the exact model, see `EF.sqrt`). -/
def len (a : Vec3) : EF := (a.len_squared).sqrt

/-- `Vec3::normalised`. -/
def normalised (a : Vec3) : Vec3 := ⟨a.x / a.len, a.y / a.len, a.z / a.len⟩

end Vec3

instance : Add Vec3 := ⟨Vec3.add⟩
instance : Sub Vec3 := ⟨Vec3.sub⟩
instance : Neg Vec3 := ⟨Vec3.neg⟩

/-- Modelled from the spec: the repository's ray module (`crate::ray`) is not
present under `src/`; §3 of the spec defines a Ray as `origin: Point3`,
`direction: Vec3`, immutable, "evaluated at parameter `t` via
`origin + t*direction`". -/
structure Ray where
  origin : Vec3
  direction : Vec3

/-- `Ray::new`. -/
def Ray.new (origin direction : Vec3) : Ray := ⟨origin, direction⟩

/-- Modelled from the spec: point evaluation `origin + t*direction` (§3). -/
def Ray.point_at (r : Ray) (t : EF) : Vec3 := r.origin + Vec3.smul t r.direction

/-- `src/gfx/texture.rs` trait `Texture`: a pure function `(u,v) → color`,
embedded as a function record (the trait-object view of the source). -/
structure Texture where
  texture : EF × EF → Vec3

/-- `src/gfx/texture.rs` `ConstantTexture`: ignores the UV coordinates. -/
def ConstantTexture.new (color : Vec3) : Texture := ⟨fun _ => color⟩

/-- `src/gfx/material.rs`: the material variants of the source, embedded as a
closed sum (`Lambertian`, `Metal`, `Dielectric`, `Emissive` are the concrete
`impl Material` structs of the file). -/
inductive Material where
  | lambertian (albedo : Texture) (normalmap : Option Texture)
  | metal (albedo : Texture) (normalmap : Option Texture)
      (metallic : Texture) (roughness : Texture)
  | dielectric (albedo : Texture) (normalmap : Option Texture)
      (refractive_index : EF)
  | emissive (emitted : Texture)

/-- `src/hit.rs` `HitResult` (the `Arc<Material>` shared reference is carried
as the material value itself). -/
structure HitResult where
  ray_param : EF
  hit_position : Vec3
  normal : Vec3
  material : Option Material
  uv_coords : Option (EF × EF)

/-- `src/math/onb.rs` `ONB`. -/
structure ONB where
  u : Vec3
  v : Vec3
  w : Vec3

/-- `ONB::from_axes`. -/
def ONB.from_axes (u v w : Vec3) : ONB := ⟨u, v, w⟩

/-- `ONB::from_w`: permute `w`, cross to get `u`, cross again to get `v`
(the source takes no normalisation step after the cross products). -/
def ONB.from_w (w : Vec3) : ONB :=
  let _temp : Vec3 := ⟨w.y, w.z, w.x⟩
  let u := w.cross _temp
  let v := w.cross u
  ⟨u, v, w⟩

/-- `ONB::to_local`. -/
def ONB.to_local (o : ONB) (n : Vec3) : Vec3 :=
  Vec3.smul n.x o.u + Vec3.smul n.y o.v + Vec3.smul n.z o.w

/-- `src/gfx/material.rs` `map_normal`: decode a tangent-space normal-map
sample to `[-1,1]³` and move it to world space; without a normal map the
geometric normal passes through. -/
def map_normal (normalmap : Option Texture) (normal : Vec3)
    (uv_coords : EF × EF) : Vec3 :=
  match normalmap with
  | some nm =>
    let img_normal := nm.texture uv_coords
    let img_normal := Vec3.smul (.fin 2) img_normal - Vec3.new (.fin 1) (.fin 1) (.fin 1)
    (ONB.from_w normal).to_local img_normal
  | none => normal

/-- `Material::emitted`: zero by default, the emissive texture for
`Emissive` (the source unwraps `hit.uv_coords`; the embedding reads the
present value, all emissive hits of this development carry UVs). -/
def Material.emitted (m : Material) (hit : HitResult) : Vec3 :=
  match m with
  | .emissive e => e.texture (hit.uv_coords.getD (.fin 0, .fin 0))
  | _ => Vec3.new (.fin 0) (.fin 0) (.fin 0)

/-- `Material::scattered`.  The Lambertian arm draws
`Vec3::random_cosine_direction()` (that function lives in the missing
`src/math/vec3.rs`; per spec §4.4 it is a canonical cosine-weighted local
sample), so the random draw is passed in as the `rand` argument; the other
arms ignore it.  `Metal` and `Dielectric` are the source's stubs that always
return `None`; `Emissive` returns `None`. -/
def Material.scattered (m : Material) (rand : Vec3) (_ray : Ray)
    (hit : HitResult) : Option (Vec3 × Vec3 × Ray × EF) :=
  match m with
  | .lambertian albedo normalmap =>
    let uv_coords := hit.uv_coords.getD (.fin 0, .fin 0)
    let normal := map_normal normalmap hit.normal uv_coords
    let direction := (ONB.from_w normal).to_local rand
    let albedo := albedo.texture uv_coords
    let pdf := normal.dot direction / .fin F32_PI
    let epsilon := Vec3.smul (.fin F32_SCATTER_EPS) normal
    let scattered := Ray.new (hit.hit_position + epsilon) direction
    some (albedo, normal, scattered, pdf)
  | .metal _ _ _ _ => none
  | .dielectric _ _ _ => none
  | .emissive _ => none

/-- `Material::scattering_pdf`: `cos(θ)/π` for Lambertian (clamped to zero
below the horizon), `0.0` for the other variants. -/
def Material.scattering_pdf (m : Material) (_ray : Ray) (hit : HitResult)
    (scattered_ray : Ray) : EF :=
  match m with
  | .lambertian _ normalmap =>
    let uv_coords := hit.uv_coords.getD (.fin 0, .fin 0)
    let normal := map_normal normalmap hit.normal uv_coords
    let cosine := normal.dot scattered_ray.direction.normalised
    if cosine.lt (.fin 0) then .fin 0 else cosine / .fin F32_PI
  | _ => .fin 0

/-- `src/hittables/aabb.rs` `Axis`. -/
inductive Axis where
  | X
  | Y
  | Z
deriving DecidableEq

/-- `src/hittables/aabb.rs` `AABB` (`end` is a Lean keyword, the field is
named `end_`). -/
structure AABB where
  start : Vec3
  end_ : Vec3
deriving DecidableEq

namespace AABB

/-- `AABB::new`: per-axis min/max of the two given corners. -/
def new (start end_ : Vec3) : AABB :=
  let s : Vec3 := ⟨EF.min start.x end_.x, EF.min start.y end_.y, EF.min start.z end_.z⟩
  let e : Vec3 := ⟨EF.max end_.x start.x, EF.max end_.y start.y, EF.max end_.z start.z⟩
  ⟨s, e⟩

/-- `AABB::surrounding_box`. -/
def surrounding_box (box1 box2 : AABB) : AABB :=
  ⟨Vec3.new (EF.min box1.start.x box2.start.x)
      (EF.min box1.start.y box2.start.y)
      (EF.min box1.start.z box2.start.z),
    Vec3.new (EF.max box1.end_.x box2.end_.x)
      (EF.max box1.end_.y box2.end_.y)
      (EF.max box1.end_.z box2.end_.z)⟩

/-- `AABB::longest_axis`. -/
def longest_axis (b : AABB) : Axis :=
  let dim := b.end_ - b.start
  if (dim.y.lt dim.x) && (dim.z.lt dim.x) then .X
  else if dim.z.lt dim.y then .Y
  else .Z

/-- One slab step of `AABB::hit` (the source writes this block three times,
once per axis): entry/exit parameters by division, then clamp the running
interval with Rust's NaN-dropping `min`/`max`, in the source's exact
operand order (`t0.min(t1)`, `t1.max(t0)`). -/
def slab (start end_ origin dir : EF) (acc : EF × EF) : EF × EF :=
  let t0 := (start - origin) / dir
  let t1 := (end_ - origin) / dir
  (EF.max acc.1 (EF.min t0 t1), EF.min acc.2 (EF.max t1 t0))

/-- `impl Hit for AABB`, `hit`: the slab test over the three axes; reports
the back-side parameter `t_max` on a hit (the source's hit position really
is `ray.origin + t_max * ray.origin`, reproduced verbatim). -/
def hit (b : AABB) (ray : Ray) (t_min t_max : EF) : Option HitResult :=
  let i1 := slab b.start.x b.end_.x ray.origin.x ray.direction.x (t_min, t_max)
  let i2 := slab b.start.y b.end_.y ray.origin.y ray.direction.y i1
  let i3 := slab b.start.z b.end_.z ray.origin.z ray.direction.z i2
  if i3.2.lt i3.1 then none
  else some ⟨i3.2, ray.origin + Vec3.smul i3.2 ray.origin,
    Vec3.new (.fin 0) (.fin 0) (.fin 0), none, none⟩

/-- `impl Hit for AABB`, `center`. -/
def center (b : AABB) : Vec3 :=
  b.start + Vec3.smul (.fin (1/2)) (b.end_ - b.start)

end AABB

/-- `src/hit.rs` trait `Hit`, embedded as an explicit method dictionary
(the Rust generic bound `T: Hit` becomes dictionary passing). -/
structure HitDict (α : Type) where
  hit : α → Ray → EF → EF → Option HitResult
  bounding_box : α → Option AABB
  center : α → Vec3

/-- `src/hittables/primitives.rs` `Sphere`. -/
structure Sphere where
  center : Vec3
  radius : EF
  material : Material

/-- `Sphere::hit` with the square root of the discriminant passed in
explicitly (`sqrtRoot` stands for the two occurrences of `root.sqrt()` in
the source); `Sphere.hit` instantiates it with the model square root.
`at2`/`asn` are the `f32::atan2` / `f32::asin` intrinsics, which have no
exact rational form; every statement below either quantifies over them or
discards the UV components they feed. -/
def Sphere.hitWithRoot (at2 : EF → EF → EF) (asn : EF → EF) (sqrtRoot : EF)
    (self : Sphere) (ray : Ray) (t_min t_max : EF) : Option HitResult :=
  let oc := ray.origin - self.center
  let a := ray.direction.dot ray.direction
  let b := oc.dot ray.direction
  let c := oc.dot oc - self.radius * self.radius
  let root := b * b - a * c
  if root.lt (.fin 0) then none
  else
    let t := (b.neg - sqrtRoot) / a
    let t := if t_max.lt t || t.lt t_min then (b.neg + sqrtRoot) / a else t
    if t_max.lt t || t.lt t_min then none
    else
      let hit_position := ray.point_at t
      let normal := (hit_position - self.center).divs self.radius
      let u := EF.fin 1 - ((at2 normal.z normal.x + .fin F32_PI) / (.fin 2 * .fin F32_PI))
      let v := (asn normal.y.neg + .fin F32_FRAC_PI_2) / .fin F32_PI
      some ⟨t, hit_position, normal, some self.material, some (u, v)⟩

/-- `impl Hit for Sphere`, `hit`: quadratic discriminant, smaller root first
with fallback to the larger (`Sphere.hitWithRoot` applied to the model
square root of the discriminant, which the source computes as
`root.sqrt()`). -/
def Sphere.hit (at2 : EF → EF → EF) (asn : EF → EF) (self : Sphere)
    (ray : Ray) (t_min t_max : EF) : Option HitResult :=
  let oc := ray.origin - self.center
  let a := ray.direction.dot ray.direction
  let b := oc.dot ray.direction
  let c := oc.dot oc - self.radius * self.radius
  let root := b * b - a * c
  Sphere.hitWithRoot at2 asn root.sqrt self ray t_min t_max

/-- `impl Hit for Sphere`, `bounding_box`. -/
def Sphere.bounding_box (self : Sphere) : Option AABB :=
  some (AABB.new
    (self.center - Vec3.new self.radius self.radius self.radius)
    (self.center + Vec3.new self.radius self.radius self.radius))

/-- The `Hit` dictionary of `Sphere`. -/
def Sphere.hitDict (at2 : EF → EF → EF) (asn : EF → EF) : HitDict Sphere :=
  ⟨Sphere.hit at2 asn, Sphere.bounding_box, fun s => s.center⟩

/-- `src/hittables/primitives.rs` `Triangle`: the public triangle primitive
(distinct from the mesh-internal one, hence the `Prim` prefix). -/
structure PrimTriangle where
  center : Vec3
  span_a : Vec3
  span_b : Vec3
  material : Material

/-- `impl Hit for Triangle` in `src/hittables/primitives.rs`: the source is
an unimplemented stub that returns `None` for every ray. -/
def PrimTriangle.hit (_self : PrimTriangle) (_ray : Ray) (_t_min _t_max : EF) :
    Option HitResult :=
  none

/-- `src/hittables/mesh.rs` `Vertex`. -/
structure Vertex where
  position : Vec3
  normal : Option Vec3
  uv_coords : Option (EF × EF)

/-- `Vertex::new`. -/
def Vertex.new (position : Vec3) (normal : Option Vec3)
    (uv_coords : Option (EF × EF)) : Vertex :=
  ⟨position, normal, uv_coords⟩

/-- `src/hittables/mesh.rs` `Triangle` (mesh-internal). -/
structure MeshTriangle where
  a : Vertex
  b : Vertex
  c : Vertex
  material : Material

/-- `impl Hit for Triangle` in `src/hittables/mesh.rs`: plane intersection,
then barycentric coordinates by the closed-form 2×2 inverse, rejecting
outside the simplex `alpha,beta ≥ 0 ∧ alpha+beta ≤ 1`. -/
def MeshTriangle.hit (self : MeshTriangle) (ray : Ray) (t_min t_max : EF) :
    Option HitResult :=
  let span_a := self.b.position - self.a.position
  let span_b := self.c.position - self.a.position
  let tri_normal := (span_a.cross span_b).normalised
  let parameter := ((ray.origin - self.a.position).dot tri_normal).neg /
    ray.direction.dot tri_normal
  if parameter.lt t_min || t_max.lt parameter then none
  else
    let hit_position := ray.point_at parameter
    let relative_hit := hit_position - self.a.position
    let ada := span_a.dot span_a
    let bdb := span_b.dot span_b
    let rda := relative_hit.dot span_a
    let rdb := relative_hit.dot span_b
    let adb := span_a.dot span_b
    let denom := EF.fin 1 / (adb * adb - ada * bdb)
    let alpha := (adb * rdb - bdb * rda) * denom
    let beta := (adb * rda - ada * rdb) * denom
    if alpha.lt (.fin 0) || beta.lt (.fin 0) || (EF.fin 1).lt (alpha + beta) then
      none
    else
      let normal := match self.a.normal, self.b.normal, self.c.normal with
        | some an, some bn, some cn =>
          Vec3.smul (EF.fin 1 - alpha - beta) an + Vec3.smul alpha bn +
            Vec3.smul beta cn
        | _, _, _ => tri_normal
      let uvcoords := match self.a.uv_coords, self.b.uv_coords, self.c.uv_coords with
        | some auv, some buv, some cuv =>
          ((EF.fin 1 - alpha - beta) * auv.1 + alpha * buv.1 + beta * cuv.1,
            (EF.fin 1 - alpha - beta) * auv.2 + alpha * buv.2 + beta * cuv.2)
        | _, _, _ => (alpha, beta)
      some ⟨parameter, hit_position, normal, some self.material, some uvcoords⟩

/-- `impl Hit for Triangle` in `src/hittables/mesh.rs`, `bounding_box`. -/
def MeshTriangle.bounding_box (self : MeshTriangle) : Option AABB :=
  let min_x := EF.min (EF.min self.a.position.x self.b.position.x) self.c.position.x
  let min_y := EF.min (EF.min self.a.position.y self.b.position.y) self.c.position.y
  let min_z := EF.min (EF.min self.a.position.z self.b.position.z) self.c.position.z
  let max_x := EF.max (EF.max self.a.position.x self.b.position.x) self.c.position.x
  let max_y := EF.max (EF.max self.a.position.y self.b.position.y) self.c.position.y
  let max_z := EF.max (EF.max self.a.position.z self.b.position.z) self.c.position.z
  some (AABB.new (Vec3.new min_x min_y min_z) (Vec3.new max_x max_y max_z))

/-- Linear-scan loop of `impl<T> Hit for Vec<T>` (`src/hit.rs`): keep the
latest hit found within `[t_min, closest]`, shrinking `closest` to each
accepted hit's parameter. -/
def listHitGo (d : HitDict α) (ray : Ray) (t_min : EF) :
    List α → EF → Option HitResult → Option HitResult
  | [], _, result => result
  | o :: rest, closest, result =>
    match d.hit o ray t_min closest with
    | some h => listHitGo d ray t_min rest h.ray_param (some h)
    | none => listHitGo d ray t_min rest closest result

/-- `impl<T> Hit for Vec<T>`, `hit`: linear scan keeping the nearest hit. -/
def listHit (d : HitDict α) (objects : List α) (ray : Ray)
    (t_min t_max : EF) : Option HitResult :=
  listHitGo d ray t_min objects t_max none

/-- The union fold inside `Vec<T>::bounding_box`: surrounding boxes of all
elements, `none` as soon as an element has no bounding box. -/
def listBBFold (d : HitDict α) : List α → AABB → Option AABB
  | [], bb => some bb
  | o :: rest, bb =>
    match d.bounding_box o with
    | some bb2 => listBBFold d rest (AABB.surrounding_box bb bb2)
    | none => none

/-- `impl<T> Hit for Vec<T>`, `bounding_box`: `none` on an empty list, the
single element's box for a singleton, otherwise the fold of
`surrounding_box` seeded with the first element's box (the source folds
over the whole list again, first element included). -/
def listBoundingBox (d : HitDict α) (objects : List α) : Option AABB :=
  match objects with
  | [] => none
  | [o] => d.bounding_box o
  | o :: _ =>
    match d.bounding_box o with
    | some bb => listBBFold d objects bb
    | none => none

/-- The `Hit` dictionary of `Vec<T>` (`center` is `todo!()` in the source,
i.e. a panic; the embedding returns a NaN vector for it). -/
def listDict (d : HitDict α) : HitDict (List α) :=
  ⟨listHit d, listBoundingBox d, fun _ => Vec3.new .nan .nan .nan⟩

/-- Insertion of one element into a sorted list, the helper of `sortBy`. -/
def insertSorted (leB : α → α → Bool) (a : α) : List α → List α
  | [] => [a]
  | b :: rest => if leB a b then a :: b :: rest else b :: insertSorted leB a rest

/-- Model of `sort_unstable_by` with a `partial_cmp`-based comparator: a
sort of the list by the boolean comparator (insertion sort; the source's
unstable sort leaves the order of equal keys unspecified, the model keeps
them stable). -/
def sortBy (leB : α → α → Bool) : List α → List α
  | [] => []
  | a :: rest => insertSorted leB a (sortBy leB rest)

/-- `src/hittables/bvh.rs` `BvhNode`: bounding box, index of the left child
(right child is `left + 1`), and the object count (`0` for internal
nodes). -/
structure BvhNode where
  bb : AABB
  left : Nat
  count : Nat

instance : Inhabited BvhNode :=
  ⟨⟨⟨Vec3.new (.fin 0) (.fin 0) (.fin 0), Vec3.new (.fin 0) (.fin 0) (.fin 0)⟩, 0, 0⟩⟩

/-- `src/hittables/bvh.rs` `BvhTree`: flat node arena (root at index 0) plus
the contiguous object array. -/
structure BvhTree (α : Type) where
  nodes : Array BvhNode
  objects : Array α

/-- A zero axis-aligned box, the placeholder behind the source's
`.unwrap()` on `list.bounding_box()` (never reached on the nonempty lists
the builder is called with). -/
def emptyBB : AABB :=
  ⟨Vec3.new (.fin 0) (.fin 0) (.fin 0), Vec3.new (.fin 0) (.fin 0) (.fin 0)⟩

/-- `BvhTree::build_subtree`: sort the list by centroid along the longest
axis of its bounding box, then store one or two objects as a leaf, or split
at the (evenness-adjusted) median and recurse.  Rust's recursion is
structural on the shrinking list; the embedding carries explicit `fuel`,
and `from_hittables` supplies `list.length + 1`, which dominates the
recursion depth because every sublist is strictly shorter.  The source's
`panic` on an empty list is modelled by returning the tree unchanged. -/
def BvhTree.build_subtree (d : HitDict α) (fuel : Nat) (tree : BvhTree α)
    (index : Nat) (list : List α) : BvhTree α :=
  match fuel with
  | 0 => tree
  | fuel + 1 =>
    let bb := (listBoundingBox d list).getD emptyBB
    let list := match bb.longest_axis with
      | .X => sortBy (fun a b => EF.le (d.center a).x (d.center b).x) list
      | .Y => sortBy (fun a b => EF.le (d.center a).y (d.center b).y) list
      | .Z => sortBy (fun a b => EF.le (d.center a).z (d.center b).z) list
    match list with
    | [] => tree
    | [o] =>
      let left := tree.objects.size
      let tree := { tree with objects := tree.objects.push o }
      { tree with nodes := (tree.nodes.setD index
          { tree.nodes.getD index default with left := left, count := 1 }) }
    | [o1, o2] =>
      let left := tree.objects.size
      let tree := { tree with objects := (tree.objects.push o1).push o2 }
      { tree with nodes := (tree.nodes.setD index
          { tree.nodes.getD index default with left := left, count := 2 }) }
    | _ =>
      let left := tree.nodes.size
      let tree := { tree with nodes := (tree.nodes.setD index
          { tree.nodes.getD index default with left := left, count := 0 }) }
      let at_ := if (list.length / 2) % 2 = 0 then list.length / 2
        else list.length / 2 + 1
      let right_list := list.drop at_
      let list := list.take at_
      let tree := { tree with nodes := (tree.nodes.push
          ⟨(listBoundingBox d list).getD emptyBB, 0, 0⟩) }
      let tree := { tree with nodes := (tree.nodes.push
          ⟨(listBoundingBox d right_list).getD emptyBB, 0, 0⟩) }
      let tree := BvhTree.build_subtree d fuel tree left list
      BvhTree.build_subtree d fuel tree (left + 1) right_list

/-- `BvhTree::from_hittables`: push the root node with the whole list's
bounding box, then build the subtree rooted there. -/
def BvhTree.from_hittables (d : HitDict α) (list : List α) : BvhTree α :=
  let tree : BvhTree α := ⟨#[], #[]⟩
  let tree := { tree with nodes := (tree.nodes.push
      ⟨(listBoundingBox d list).getD emptyBB, 0, 0⟩) }
  BvhTree.build_subtree d (list.length + 1) tree 0 list

/-- `BvhTree::hit_node`: prune on the node's bounding box, delegate to the
single object of a one-object leaf, otherwise query both children (the two
objects of a leaf, or the two child nodes) and keep the hit with the
smaller `ray_param`.  Rust recurses on child indices; the embedding carries
explicit `fuel`, and `BvhTree.hit` supplies `nodes.size`, which dominates
the recursion depth because every child index produced by the builder is
strictly larger than its parent's. -/
def BvhTree.hit_node [Inhabited α] (d : HitDict α) (fuel : Nat)
    (t : BvhTree α) (idx : Nat) (ray : Ray) (t_min t_max : EF) :
    Option HitResult :=
  match fuel with
  | 0 => none
  | fuel + 1 =>
    let node := t.nodes.getD idx default
    match node.bb.hit ray t_min t_max with
    | some _hr =>
      if node.count = 1 then
        d.hit (t.objects.getD node.left default) ray t_min t_max
      else
        let lr := match node.count with
          | 0 =>
            (BvhTree.hit_node d fuel t node.left ray t_min t_max,
              BvhTree.hit_node d fuel t (node.left + 1) ray t_min t_max)
          | _ =>
            (d.hit (t.objects.getD node.left default) ray t_min t_max,
              d.hit (t.objects.getD (node.left + 1) default) ray t_min t_max)
        match lr with
        | (some lh, some rh) =>
          if lh.ray_param.lt rh.ray_param then some lh else some rh
        | (some lh, none) => some lh
        | (none, some rh) => some rh
        | (none, none) => none
    | none => none

/-- `impl<T: Hit> Hit for BvhTree<T>`, `hit`: query from the root. -/
def BvhTree.hit [Inhabited α] (d : HitDict α) (t : BvhTree α) (ray : Ray)
    (t_min t_max : EF) : Option HitResult :=
  BvhTree.hit_node d t.nodes.size t 0 ray t_min t_max

/-- `impl<T: Hit> Hit for BvhTree<T>`, `bounding_box`. -/
def BvhTree.bounding_box (t : BvhTree α) : Option AABB :=
  some (t.nodes.getD 0 default).bb

/-- The `Hit` dictionary of `BvhTree<T>`. -/
def BvhTree.hitDict [Inhabited α] (d : HitDict α) : HitDict (BvhTree α) :=
  ⟨BvhTree.hit d, BvhTree.bounding_box, fun t => (t.nodes.getD 0 default).bb.center⟩

/-- `src/camera.rs` `Focus`. -/
inductive Focus where
  | autoFocus
  | distance (d : EF)

/-- `src/camera.rs` `Camera` (the fields `get_ray` reads, plus the lens
parameters). -/
structure Camera where
  position : Vec3
  direction : Vec3
  right : Vec3
  up : Vec3
  tan_half_fov : EF
  width : Nat
  height : Nat
  focus : Focus
  aperture : EF
  fstop : Int
  focal_length : EF

/-- `Camera::get_ray`: place the pixel on the focus plane, pick a start
point on the lens, aim from the start point at the pixel.  The source draws
`Vec3::random_in_unit_disk()` (a function of the missing `src/math/vec3.rs`;
per the older `src/vec3.rs` layer it is a random vector in the unit disk),
passed in here as `disk`. -/
def Camera.get_ray (self : Camera) (disk : Vec3) (x y : EF) : Ray :=
  let focus_dist := match self.focus with
    | .autoFocus => EF.fin 2
    | .distance d => d
  let focal_width := EF.fin 2 * self.tan_half_fov * focus_dist
  let scale := focal_width / .fin (self.width : ℚ)
  let forward := self.direction
  let right := Vec3.smul scale self.right
  let up := Vec3.smul scale.neg self.up
  let center := self.position + Vec3.smul focus_dist forward
  let pixel_pos := center +
    Vec3.smul (x - .fin ((self.width / 2 : ℕ) : ℚ)) right +
    Vec3.smul (y - .fin ((self.height / 2 : ℕ) : ℚ)) up
  let lens_pos := Vec3.smul (self.aperture / .fin 2) disk
  let start := self.position + lens_pos
  let pixel_dir := pixel_pos - start
  Ray.new start pixel_dir

/-- `src/pathtracer.rs` `PathTracer`, generic over the object type behind
the source's `Arc<dyn Hit>`. -/
structure PathTracer (α : Type) where
  width : Nat
  height : Nat
  samples : Nat
  incremental : Bool
  camera : Camera
  objects : List α
  sky : Texture
  bvh : Option (BvhTree α)
  debug_index : Option Nat

/-- `PathTracer::MAX_BOUNCES` (the `const` inside `trace_color`). -/
def MAX_BOUNCES : Nat := 100

/-- The mutable state of the `while` loop of `PathTracer::trace_color`. -/
structure LoopState where
  ray_to_use : Ray
  final_attenuation : Vec3
  out_color : Vec3
  out_albedo : Option Vec3
  out_normal : Option Vec3
  out_depth : Option EF
  bounces : Nat

/-- The placeholder behind the source's
`.expect("How did you manage to not have a material?!")`: a hit without a
material aborts the render; the embedding substitutes a black emissive
material (never reached in this development, every modelled hit carries a
material). -/
def missingMaterial : Material :=
  .emissive (ConstantTexture.new (Vec3.new (.fin 0) (.fin 0) (.fin 0)))

/-- The initial loop state of `PathTracer::trace_color`: the primary ray,
throughput `(1,1,1)`, radiance `(0,0,0)`, no auxiliary outputs, zero
bounces. -/
def initLoopState (ray : Ray) : LoopState :=
  ⟨ray, Vec3.new (.fin 1) (.fin 1) (.fin 1),
    Vec3.new (.fin 0) (.fin 0) (.fin 0), none, none, none, 0⟩

/-- The `while let Some(hit) = object.hit(&ray_to_use, 0.0001, f32::MAX)`
loop of `PathTracer::trace_color`: accumulate emission, scatter, reweight
the throughput by `(albedo * scattering_pdf) / pdf`.  Rust's loop is bounded
because `bounces` grows by one per iteration and the loop breaks above
`MAX_BOUNCES`; the embedding carries explicit `fuel` and returns `none` on
fuel exhaustion, and `trace_color` supplies `MAX_BOUNCES + 2` which is
proved sufficient below.  `rand` supplies the cosine-weighted random sample
`Material::scattered` draws at each bounce, indexed by the bounce counter;
`primary_ray` is the unmodified `ray` argument of `trace_color`, which the
source (not `ray_to_use`) passes to `scattering_pdf`. -/
def traceLoop (d : HitDict α) (object : α) (rand : Nat → Vec3)
    (primary_ray : Ray) : Nat → LoopState → Option LoopState
  | 0, _ => none
  | fuel + 1, st =>
    match d.hit object st.ray_to_use (.fin F32_HIT_EPS) (.fin F32_MAX) with
    | none => some st
    | some hit =>
      if st.bounces > MAX_BOUNCES then some st
      else
        let st := { st with bounces := st.bounces + 1 }
        let mat := hit.material.getD missingMaterial
        let emitted := mat.emitted hit
        let st := { st with out_color := st.out_color + st.final_attenuation.mul emitted }
        match mat.scattered (rand st.bounces) st.ray_to_use hit with
        | some (albedo, normal, scattered_ray, pdf) =>
          let brdf := Vec3.smul (mat.scattering_pdf primary_ray hit scattered_ray) albedo
          let st := { st with final_attenuation := st.final_attenuation.mul (brdf.divs pdf) }
          let st := { st with ray_to_use := scattered_ray }
          let st := if st.out_albedo.isNone then { st with out_albedo := some albedo } else st
          let st := if st.out_normal.isNone then { st with out_normal := some normal } else st
          let st := if st.out_depth.isNone
            then { st with out_depth := some (EF.fin 1 / hit.ray_param) } else st
          traceLoop d object rand primary_ray fuel st
        | none => traceLoop d object rand primary_ray fuel st

/-- `PathTracer::trace_color`: run the bounce loop, then sample the sky from
the final ray direction and resolve the auxiliary outputs; returns
`(color, albedo, normal, depth)`. -/
def trace_color (at2 : EF → EF → EF) (asn : EF → EF) (rand : Nat → Vec3)
    (sky : Texture) (d : HitDict α) (ray : Ray) (object : α) :
    Vec3 × Vec3 × Vec3 × EF :=
  let st0 := initLoopState ray
  let st := (traceLoop d object rand ray (MAX_BOUNCES + 2) st0).getD st0
  let x := st.ray_to_use.direction.x
  let z := st.ray_to_use.direction.z
  let u := EF.fin 1 - ((at2 z x + .fin F32_PI) / (.fin 2 * .fin F32_PI))
  let y := (EF.max (EF.min st.ray_to_use.direction.y (.fin 1)) (.fin (-1))).neg
  let v := (asn y + .fin F32_FRAC_PI_2) / .fin F32_PI
  let skycolor := sky.texture (u, v)
  let out_albedo := st.out_albedo.getD skycolor
  let out_normal := st.out_normal.getD st.ray_to_use.direction.neg
  let out_depth := st.out_depth.getD (.fin 0)
  let out_color := st.out_color + skycolor.mul st.final_attenuation
  (out_color, out_albedo, out_normal, out_depth)

/-- `PathTracer::set_pixel`: clamp each channel of `color` into `[0,1]`
(`v.min(1.0).max(0.0)`) and write the three floats of pixel `(x, y)`. -/
def set_pixel (self : PathTracer α) (buf : List EF) (x y : Nat)
    (color : Vec3) : List EF :=
  let x_stride := 3
  let y_stride := self.width * x_stride
  let position := x * x_stride + y * y_stride
  let buf := buf.set (0 + position) (EF.max (EF.min color.x (.fin 1)) (.fin 0))
  let buf := buf.set (1 + position) (EF.max (EF.min color.y (.fin 1)) (.fin 0))
  buf.set (2 + position) (EF.max (EF.min color.z (.fin 1)) (.fin 0))

/-- The `for _ in 0..self.samples` accumulation loop of
`PathTracer::render_pixel`: one camera ray per sample, jittered inside the
pixel by the two `rng.gen_range(0.0, 1.0)` draws (`rngx`/`rngy`, indexed by
the sample number, as is the lens sample `disk`). -/
def renderSamples [Inhabited α] (at2 : EF → EF → EF) (asn : EF → EF)
    (rand : Nat → Vec3)
    (rngx rngy : Nat → EF) (disk : Nat → Vec3) (self : PathTracer α)
    (d : HitDict α) (bvh : BvhTree α) (x y : Nat) :
    Nat → Nat → Vec3 × Vec3 × Vec3 × EF → Vec3 × Vec3 × Vec3 × EF
  | 0, _, acc => acc
  | fuel + 1, idx, acc =>
    let ray := self.camera.get_ray (disk idx)
      (.fin (x : ℚ) + rngx idx) (.fin (y : ℚ) + rngy idx)
    let r := trace_color at2 asn rand self.sky (BvhTree.hitDict d) ray bvh
    renderSamples at2 asn rand rngx rngy disk self d bvh x y fuel (idx + 1)
      (acc.1 + r.1, acc.2.1 + r.2.1, acc.2.2.1 + r.2.2.1, acc.2.2.2 + r.2.2.2)

/-- `PathTracer::render_pixel`: average `samples` jittered estimates,
optionally blend with the previous frame (`incremental`), and write the
three floats of each of the four per-pixel buffer slices directly (the
buffers passed by the renderer are the 3-float chunks of one pixel).
Returns the updated `(color, albedo, normal, depth)` buffers. -/
def render_pixel [Inhabited α] (at2 : EF → EF → EF) (asn : EF → EF)
    (rand : Nat → Vec3) (rngx rngy : Nat → EF) (disk : Nat → Vec3)
    (self : PathTracer α) (d : HitDict α) (index : Nat) (frame : Nat)
    (color_buf albedo_buf normal_buf depth_buf : List EF) :
    List EF × List EF × List EF × List EF :=
  let pixel := index
  let x := pixel % self.width
  let y := pixel / self.width
  let bvh := (self.bvh).getD ⟨#[], #[]⟩
  let z3 := Vec3.rgb 0 0 0
  let acc := renderSamples at2 asn rand rngx rngy disk self d bvh x y
    self.samples 0 (z3, z3, z3, .fin 0)
  let final_color := acc.1.divs (.fin (self.samples : ℚ))
  let final_albedo := acc.2.1.divs (.fin (self.samples : ℚ))
  let final_normal := acc.2.2.1.divs (.fin (self.samples : ℚ))
  let final_depth := acc.2.2.2 / .fin (self.samples : ℚ)
  let k := EF.fin 1 / .fin (frame : ℚ)
  let km1 := EF.fin ((frame - 1 : ℕ) : ℚ) / .fin (frame : ℚ)
  let final_color := if self.incremental then
    Vec3.smul km1 (Vec3.new (color_buf.getD 0 (.fin 0)) (color_buf.getD 1 (.fin 0))
      (color_buf.getD 2 (.fin 0))) + Vec3.smul k final_color
    else final_color
  let final_albedo := if self.incremental then
    Vec3.smul km1 (Vec3.new (albedo_buf.getD 0 (.fin 0)) (albedo_buf.getD 1 (.fin 0))
      (albedo_buf.getD 2 (.fin 0))) + Vec3.smul k final_albedo
    else final_albedo
  let final_normal := if self.incremental then
    Vec3.smul km1 (Vec3.new (normal_buf.getD 0 (.fin 0)) (normal_buf.getD 1 (.fin 0))
      (normal_buf.getD 2 (.fin 0))) + Vec3.smul k final_normal
    else final_normal
  let final_depth := if self.incremental then
    (Vec3.smul km1 (Vec3.new (depth_buf.getD 0 (.fin 0)) (depth_buf.getD 1 (.fin 0))
      (depth_buf.getD 2 (.fin 0)))).x + k * final_depth
    else final_depth
  let color_buf := ((color_buf.set 0 final_color.x).set 1 final_color.y).set 2 final_color.z
  let albedo_buf := ((albedo_buf.set 0 final_albedo.x).set 1 final_albedo.y).set 2 final_albedo.z
  let normal_buf := ((normal_buf.set 0 final_normal.x).set 1 final_normal.y).set 2 final_normal.z
  let depth_buf := ((depth_buf.set 0 final_depth).set 1 final_depth).set 2 final_depth
  (color_buf, albedo_buf, normal_buf, depth_buf)

/-! Predicates used by the theorems below. -/

/-- A `Vec3` with no NaN component. -/
def Vec3.nonNan (v : Vec3) : Prop := v.x ≠ .nan ∧ v.y ≠ .nan ∧ v.z ≠ .nan

instance (v : Vec3) : Decidable v.nonNan := by unfold Vec3.nonNan; infer_instance

/-- An `AABB` with no NaN coordinate. -/
def AABB.nonNan (b : AABB) : Prop := b.start.nonNan ∧ b.end_.nonNan

instance (b : AABB) : Decidable b.nonNan := by unfold AABB.nonNan; infer_instance

/-- The `AABB` ordering invariant `start[i] ≤ end[i]` documented on the
struct's fields ("must be < end!"). -/
def AABB.invariant (b : AABB) : Prop :=
  EF.le b.start.x b.end_.x = true ∧ EF.le b.start.y b.end_.y = true ∧
    EF.le b.start.z b.end_.z = true

instance (b : AABB) : Decidable b.invariant := by unfold AABB.invariant; infer_instance

/-- `outer` contains `inner` per axis: `outer.start ≤ inner.start` and
`inner.end ≤ outer.end` componentwise. -/
def AABB.contains (outer inner : AABB) : Prop :=
  EF.le outer.start.x inner.start.x = true ∧
  EF.le outer.start.y inner.start.y = true ∧
  EF.le outer.start.z inner.start.z = true ∧
  EF.le inner.end_.x outer.end_.x = true ∧
  EF.le inner.end_.y outer.end_.y = true ∧
  EF.le inner.end_.z outer.end_.z = true

instance (a b : AABB) : Decidable (a.contains b) := by unfold AABB.contains; infer_instance

/-! Concrete scenes for the closed statements. -/

/-- A stand-in for `f32::atan2` in closed statements (the sky and sphere UV
coordinates never influence the quantities those statements observe). -/
def atanStub : EF → EF → EF := fun _ _ => .nan

/-- A stand-in for `f32::asin` in closed statements. -/
def asinStub : EF → EF := fun _ => .nan

/-- A constant-zero random stream (for materials that never scatter). -/
def randStub : Nat → Vec3 := fun _ => Vec3.new (.fin 0) (.fin 0) (.fin 0)

/-- A constant-zero `gen_range(0.0, 1.0)` stream (0 is in the range). -/
def zeroEF : Nat → EF := fun _ => .fin 0

/-- A constant-zero unit-disk sample stream (the origin is in the disk). -/
def zeroDisk : Nat → Vec3 := fun _ => Vec3.new (.fin 0) (.fin 0) (.fin 0)

/-- A black constant texture. -/
def blackTex : Texture := ConstantTexture.new (Vec3.new (.fin 0) (.fin 0) (.fin 0))

/-- A mid-gray constant texture, used as the sky of the absorption scenes. -/
def grayTex : Texture := ConstantTexture.new (Vec3.new (.fin (1/2)) (.fin (1/2)) (.fin (1/2)))

/-- A constant sky brighter than 1 (HDR skies are routine inputs). -/
def brightTex : Texture := ConstantTexture.new (Vec3.new (.fin 2) (.fin 2) (.fin 2))

/-- A `Metal` material (the source's `Metal::scattered` always returns
`None`). -/
def stubMetal : Material := .metal blackTex none blackTex blackTex

/-- A `Lambertian` material with a constant albedo and no normal map. -/
def lamMat : Material := .lambertian grayTex none

/-- The unit sphere at the origin, carrying the absorbing `Metal`. -/
def unitSphere : Sphere :=
  ⟨Vec3.new (.fin 0) (.fin 0) (.fin 0), .fin 1, stubMetal⟩

instance : Inhabited Sphere := ⟨unitSphere⟩

/-- A unit sphere far off the primary ray's path, at `(0, 100, 0)`. -/
def farSphere : Sphere :=
  ⟨Vec3.new (.fin 0) (.fin 100) (.fin 0), .fin 1, stubMetal⟩

/-- The sphere `Hit` dictionary over the stub transcendentals. -/
def sphereDict : HitDict Sphere := Sphere.hitDict atanStub asinStub

/-- The ray `(-1,0,-5) → (0,0,1)`: parallel to the x-slabs of the unit
sphere's bounding box, grazing the box's `x = -1` face, tangent to the unit
sphere at `(-1,0,0)` (hit at `t = 5`). -/
def tangentRay : Ray :=
  ⟨Vec3.new (.fin (-1)) (.fin 0) (.fin (-5)), Vec3.new (.fin 0) (.fin 0) (.fin 1)⟩

/-- The primary test ray `(0,0,-5) → (0,0,1)` (spec §8's sphere case). -/
def primaryRay : Ray :=
  ⟨Vec3.new (.fin 0) (.fin 0) (.fin (-5)), Vec3.new (.fin 0) (.fin 0) (.fin 1)⟩

/-- The finalized BVH of the one-sphere scenes, written out: a single leaf
node over the box `[-1,1]³` holding the unit sphere (proved below to be
what `BvhTree::from_hittables` builds from `[unitSphere]`). -/
def c2tree : BvhTree Sphere :=
  ⟨#[⟨AABB.new (Vec3.new (.fin (-1)) (.fin (-1)) (.fin (-1)))
      (Vec3.new (.fin 1) (.fin 1) (.fin 1)), 0, 1⟩], #[unitSphere]⟩

/-- The loop state of the absorbing-metal walk after `b` bounces: the ray,
throughput and radiance never change, only the bounce counter moves. -/
def c2state (b : Nat) : LoopState :=
  ⟨primaryRay, Vec3.new (.fin 1) (.fin 1) (.fin 1),
    Vec3.new (.fin 0) (.fin 0) (.fin 0), none, none, none, b⟩

/-- The mesh triangle with corners `(0,0,0)`, `(1,0,0)`, `(0,1,0)` (no
vertex normals or UVs). -/
def mtri : MeshTriangle :=
  ⟨⟨Vec3.new (.fin 0) (.fin 0) (.fin 0), none, none⟩,
    ⟨Vec3.new (.fin 1) (.fin 0) (.fin 0), none, none⟩,
    ⟨Vec3.new (.fin 0) (.fin 1) (.fin 0), none, none⟩, lamMat⟩

/-- A ray aimed straight down at the triangle's centroid `(1/3, 1/3, 0)`. -/
def triRayCentroid : Ray :=
  ⟨Vec3.new (.fin (1/3)) (.fin (1/3)) (.fin 1), Vec3.new (.fin 0) (.fin 0) (.fin (-1))⟩

/-- A ray aimed straight down at `(0.6, 0.6, 0)`, just outside the
hypotenuse (`u + v = 1.2 > 1`). -/
def triRayOutside : Ray :=
  ⟨Vec3.new (.fin (3/5)) (.fin (3/5)) (.fin 1), Vec3.new (.fin 0) (.fin 0) (.fin (-1))⟩

/-- The same triangle as `mtri`, as the public `primitives.rs` triangle. -/
def primTri : PrimTriangle :=
  ⟨Vec3.new (.fin 0) (.fin 0) (.fin 0), Vec3.new (.fin 1) (.fin 0) (.fin 0),
    Vec3.new (.fin 0) (.fin 1) (.fin 0), lamMat⟩

/-- The unit surface normal `(1/9, -8/9, 4/9)` (`1² + 8² + 4² = 9²`). -/
def c7w : Vec3 := Vec3.new (.fin (1/9)) (.fin (-8/9)) (.fin (4/9))

/-- A canonical cosine-weighted local sample `(3/7, 6/7, 2/7)` (a unit
vector with positive z-component, so in the distribution's support). -/
def c7sample : Vec3 := Vec3.new (.fin (3/7)) (.fin (6/7)) (.fin (2/7))

/-- A hit on a Lambertian surface with the unit normal `c7w`. -/
def c7hit : HitResult :=
  ⟨.fin 1, Vec3.new (.fin 0) (.fin 0) (.fin 0), c7w, some lamMat,
    some (.fin 0, .fin 0)⟩

/-- An arbitrary incoming ray for the Lambertian scatter (both pdfs ignore
it). -/
def c7ray : Ray :=
  ⟨Vec3.new (.fin 0) (.fin 0) (.fin (-5)), Vec3.new (.fin 0) (.fin 0) (.fin 1)⟩

/-- A 1×1 camera at the origin looking along `+z`: orthonormal frame,
`tan_half_fov = 1`, autofocus, aperture 0 (no depth of field). -/
def c9camera : Camera :=
  ⟨Vec3.new (.fin 0) (.fin 0) (.fin 0), Vec3.new (.fin 0) (.fin 0) (.fin 1),
    Vec3.new (.fin 1) (.fin 0) (.fin 0), Vec3.new (.fin 0) (.fin 1) (.fin 0),
    .fin 1, 1, 1, .autoFocus, .fin 0, 0, .fin 0⟩

/-- A finalized 1×1-pixel, 1-sample tracer whose single sphere misses the
camera ray, under the HDR sky `(2,2,2)`. -/
def c9tracer : PathTracer Sphere :=
  ⟨1, 1, 1, false, c9camera, [], brightTex,
    some (BvhTree.from_hittables sphereDict [farSphere]), none⟩

/-! Helper lemmas: unfolding the arithmetic instances, and the order theory
of the `f32` model. -/

@[simp] theorem EF.add_def (a b : EF) : a + b = a.add b := rfl

@[simp] theorem EF.sub_def (a b : EF) : a - b = a.sub b := rfl

@[simp] theorem EF.mul_def (a b : EF) : a * b = a.mul b := rfl

@[simp] theorem EF.div_def (a b : EF) : a / b = a.div b := rfl

@[simp] theorem EF.neg_def (a : EF) : -a = a.neg := rfl

@[simp] theorem Vec3.vadd_def (a b : Vec3) : a + b = a.add b := rfl

@[simp] theorem Vec3.vsub_def (a b : Vec3) : a - b = a.sub b := rfl

@[simp] theorem Vec3.vneg_def (a : Vec3) : -a = a.neg := rfl

theorem ratSqrt_zero : Rat.sqrt 0 = 0 := by
  rw [show (0 : ℚ) = 0 * 0 by norm_num, Rat.sqrt_eq]
  norm_num

theorem ratSqrt_one : Rat.sqrt 1 = 1 := by
  rw [show (1 : ℚ) = 1 * 1 by norm_num, Rat.sqrt_eq]
  norm_num

theorem ratSqrt_361_441 : Rat.sqrt (361 / 441) = 19 / 21 := by
  rw [show (361 / 441 : ℚ) = (19 / 21) * (19 / 21) by norm_num, Rat.sqrt_eq]
  norm_num

/-- `f32::max` returns `+∞` as soon as its left argument is `+∞`. -/
theorem EF.max_pinf_left (b : EF) : EF.max .pinf b = .pinf := by
  cases b <;> rfl

/-- `f32::max` returns `+∞` as soon as its right argument is `+∞`. -/
theorem EF.max_pinf_right (a : EF) : EF.max a .pinf = .pinf := by
  cases a <;> rfl

/-- `f32::min` returns `-∞` as soon as its left argument is `-∞`. -/
theorem EF.min_ninf_left (b : EF) : EF.min .ninf b = .ninf := by
  cases b <;> rfl

/-- `f32::min` returns `-∞` as soon as its right argument is `-∞`. -/
theorem EF.min_ninf_right (a : EF) : EF.min a .ninf = .ninf := by
  cases a <;> rfl

/-- `f32::max` never returns NaN when its left argument is not NaN. -/
theorem EF.max_ne_nan (a b : EF) (ha : a ≠ .nan) : EF.max a b ≠ .nan := by
  cases a <;> cases b <;> simp_all [EF.max] <;> split <;> simp

/-- `f32::min` never returns NaN when its left argument is not NaN. -/
theorem EF.min_ne_nan (a b : EF) (ha : a ≠ .nan) : EF.min a b ≠ .nan := by
  cases a <;> cases b <;> simp_all [EF.min] <;> split <;> simp

/-- `f32::max` never returns `-∞` when its left argument is neither NaN nor
`-∞`. -/
theorem EF.max_ne_ninf (a b : EF) (ha : a ≠ .nan) (hb : a ≠ .ninf) :
    EF.max a b ≠ .ninf := by
  cases a <;> cases b <;> simp_all [EF.max] <;> split <;> simp

/-- `f32::min` never returns `+∞` when its left argument is neither NaN nor
`+∞`. -/
theorem EF.min_ne_pinf (a b : EF) (ha : a ≠ .nan) (hb : a ≠ .pinf) :
    EF.min a b ≠ .pinf := by
  cases a <;> cases b <;> simp_all [EF.min] <;> split <;> simp

/-- Everything other than NaN and `+∞` is `< +∞`. -/
theorem EF.lt_pinf (a : EF) (ha : a ≠ .nan) (hb : a ≠ .pinf) :
    EF.lt a .pinf = true := by
  cases a <;> simp_all [EF.lt]

/-- `-∞ <` everything other than NaN and `-∞`. -/
theorem EF.ninf_lt (a : EF) (ha : a ≠ .nan) (hb : a ≠ .ninf) :
    EF.lt .ninf a = true := by
  cases a <;> simp_all [EF.lt]

/-- The BVH built from the single unit sphere, for any transcendental
oracles: one leaf node over the box `[-1,1]³`. -/
theorem oneSphereTree_eval (at2 : EF → EF → EF) (asn : EF → EF) :
    BvhTree.from_hittables (Sphere.hitDict at2 asn) [unitSphere] = c2tree := by
  norm_num [BvhTree.from_hittables, BvhTree.build_subtree, listBoundingBox,
    Sphere.bounding_box, Sphere.hitDict, unitSphere, AABB.new, c2tree,
    AABB.longest_axis, sortBy, insertSorted, EF.min, EF.max, EF.lt,
    Vec3.new, Vec3.add, Vec3.sub, EF.add, EF.sub, EF.neg, emptyBB]

/-- C1: the claimed BVH/linear-scan equivalence fails.  For the finalized
BVH built from the single unit sphere at the origin and the tangent ray
`(-1,0,-5) → (0,0,1)` (direction exactly parallel to the x-slabs, origin on
the box's `x = -1` face), the root slab test divides `0/0 = NaN`, Rust's
NaN-dropping `min`/`max` then force the running `t_min` to `+∞`, and
`BvhTree::hit` reports no hit — while the linear scan of the same
one-element list reports the tangent hit at `t = 5`, position `(-1,0,0)`. -/
theorem c1_bvh_vs_linear_divergence :
    BvhTree.hit sphereDict (BvhTree.from_hittables sphereDict [unitSphere])
      tangentRay (.fin F32_HIT_EPS) (.fin F32_MAX) = none ∧
    (listHit sphereDict [unitSphere] tangentRay (.fin F32_HIT_EPS)
        (.fin F32_MAX)).map (fun h => (h.ray_param, h.hit_position)) =
      some (.fin 5, Vec3.new (.fin (-1)) (.fin 0) (.fin 0)) := by
  refine ⟨?_, ?_⟩
  · unfold sphereDict
    rw [oneSphereTree_eval]
    norm_num [BvhTree.hit, BvhTree.hit_node, AABB.new, AABB.hit, AABB.slab,
      c2tree, tangentRay, EF.min, EF.max, EF.lt, EF.div, EF.sub, EF.add, EF.neg,
      Vec3.new, F32_HIT_EPS, F32_MAX]
  · norm_num [listHit, listHitGo, sphereDict, Sphere.hitDict, Sphere.hit,
      Sphere.hitWithRoot, unitSphere, tangentRay, Ray.point_at,
      Vec3.new, Vec3.add, Vec3.sub, Vec3.dot, Vec3.smul, Vec3.divs,
      EF.min, EF.max, EF.lt, EF.div, EF.sub, EF.add, EF.neg, EF.mul, EF.sqrt,
      F32_HIT_EPS, F32_MAX, ratSqrt_zero]

/-- C3 counterexample: the public triangle primitive
(`src/hittables/primitives.rs`, `impl Hit for Triangle`) reports no hit even
for the ray aimed at the centroid of the triangle `(0,0,0),(1,0,0),(0,1,0)`
— it is an unimplemented stub that returns `None` for every ray. -/
theorem c3_prim_triangle_stub_no_hit :
    PrimTriangle.hit primTri triRayCentroid (.fin F32_HIT_EPS) (.fin F32_MAX) =
      none :=
  rfl

/-- C3 (amended): the mesh-internal `Triangle::hit`
(`src/hittables/mesh.rs`) satisfies the claimed containment behaviour: the
ray aimed at the centroid of `(0,0,0),(1,0,0),(0,1,0)` hits at `t = 1` with
barycentric coordinates `(1/3, 1/3)` — both nonnegative, summing to at most
1 — and the ray aimed at `(0.6, 0.6)`, just outside the hypotenuse, reports
no hit. -/
theorem c3_mesh_triangle_containment :
    (MeshTriangle.hit mtri triRayCentroid (.fin F32_HIT_EPS) (.fin F32_MAX)).map
        (fun h => (h.ray_param, h.uv_coords)) =
      some (.fin 1, some (.fin (1/3), .fin (1/3))) ∧
    ((0 : ℚ) ≤ 1/3 ∧ (1/3 : ℚ) + 1/3 ≤ 1) ∧
    MeshTriangle.hit mtri triRayOutside (.fin F32_HIT_EPS) (.fin F32_MAX) =
      none := by
  refine ⟨?_, by norm_num, ?_⟩ <;>
    norm_num [MeshTriangle.hit, mtri, triRayCentroid, triRayOutside,
      Ray.point_at, Vec3.new, Vec3.add, Vec3.sub, Vec3.dot, Vec3.smul,
      Vec3.cross, Vec3.normalised, Vec3.len, Vec3.len_squared, Vec3.divs,
      EF.min, EF.max, EF.lt, EF.div, EF.sub, EF.add, EF.neg, EF.mul, EF.sqrt,
      F32_HIT_EPS, F32_MAX, ratSqrt_one]

/-- C7: for the Lambertian material without a normal map, at a hit whose
surface normal is the unit vector `(1/9, -8/9, 4/9)` and for the canonical
cosine-weighted sample `(3/7, 6/7, 2/7)` (also unit), the `sample_pdf`
returned by `Lambertian::scattered` is `(2/7)/π` while
`Lambertian::scattering_pdf` evaluated on the very ray it returned is
`(6/19)/π` — the two differ, because `ONB::from_w` does not normalise its
`u`,`v` axes (here `|u| = |v| = √65/9 ≠ 1`), so the scattered direction has
norm `19/21 ≠ 1`. -/
theorem c7_lambertian_pdf_mismatch :
    Vec3.len_squared c7w = .fin 1 ∧
    Vec3.len_squared c7sample = .fin 1 ∧
    (Material.scattered lamMat c7sample c7ray c7hit).map (fun r => r.2.2.2) =
      some (.fin (2/7 / F32_PI)) ∧
    (Material.scattered lamMat c7sample c7ray c7hit).map
        (fun r => Material.scattering_pdf lamMat c7ray c7hit r.2.2.1) =
      some (.fin (6/19 / F32_PI)) ∧
    (2/7 / F32_PI : ℚ) ≠ 6/19 / F32_PI := by
  refine ⟨?_, ?_, ?_, ?_, ?_⟩ <;>
    norm_num [Material.scattered, Material.scattering_pdf, map_normal,
      lamMat, c7w, c7sample, c7hit, c7ray, grayTex, ConstantTexture.new,
      ONB.from_w, ONB.to_local, Ray.new,
      Vec3.new, Vec3.add, Vec3.sub, Vec3.dot, Vec3.smul, Vec3.cross,
      Vec3.normalised, Vec3.len, Vec3.len_squared, Vec3.divs,
      EF.lt, EF.div, EF.sub, EF.add, EF.neg, EF.mul, EF.sqrt,
      F32_PI, F32_SCATTER_EPS, ratSqrt_361_441]

/-- The metal-sphere scene's BVH hit of the primary ray: a hit carrying the
absorbing metal material (the hit's UV components depend on the
transcendental oracles, so only the material projection is stated — the
bounce loop reads nothing else from an absorbing hit). -/
theorem c2_hit_proj (at2 : EF → EF → EF) (asn : EF → EF) :
    (BvhTree.hit (Sphere.hitDict at2 asn) c2tree primaryRay (.fin F32_HIT_EPS)
        (.fin F32_MAX)).map (fun h => h.material) = some (some stubMetal) := by
  norm_num [BvhTree.hit, BvhTree.hit_node, AABB.new, AABB.hit, AABB.slab,
    c2tree, primaryRay, Sphere.hitDict, Sphere.hit, Sphere.hitWithRoot,
    unitSphere, Ray.point_at,
    Vec3.new, Vec3.add, Vec3.sub, Vec3.dot, Vec3.smul, Vec3.divs,
    EF.min, EF.max, EF.lt, EF.div, EF.sub, EF.add, EF.neg, EF.mul, EF.sqrt,
    F32_HIT_EPS, F32_MAX, ratSqrt_one]

/-- One iteration of the absorbing-metal walk: the hit is re-found, the
bounce counter advances, nothing else changes (the metal emits nothing and
scatters `None`, so the ray is never replaced). -/
theorem c2_loop_step (at2 : EF → EF → EF) (asn : EF → EF) (rand : Nat → Vec3)
    (f b : Nat) (hb : b ≤ MAX_BOUNCES) :
    traceLoop (BvhTree.hitDict (Sphere.hitDict at2 asn)) c2tree rand primaryRay
      (f + 1) (c2state b) =
    traceLoop (BvhTree.hitDict (Sphere.hitDict at2 asn)) c2tree rand primaryRay
      f (c2state (b + 1)) := by
  obtain ⟨hr, hhr, hmat⟩ := Option.map_eq_some'.mp (c2_hit_proj at2 asn)
  have hbne : ¬(b > MAX_BOUNCES) := by omega
  simp only [traceLoop, BvhTree.hitDict, c2state, hhr, hmat, hbne, if_false,
    Option.getD_some, Material.emitted, Material.scattered, stubMetal,
    Option.isNone_none, Option.isNone_some]
  norm_num [Vec3.add, Vec3.mul, Vec3.new, EF.add, EF.mul]

/-- The iteration that ends the absorbing-metal walk: at
`bounces = MAX_BOUNCES + 1` the loop breaks. -/
theorem c2_loop_break (at2 : EF → EF → EF) (asn : EF → EF)
    (rand : Nat → Vec3) (f : Nat) :
    traceLoop (BvhTree.hitDict (Sphere.hitDict at2 asn)) c2tree rand primaryRay
      (f + 1) (c2state (MAX_BOUNCES + 1)) = some (c2state (MAX_BOUNCES + 1)) := by
  obtain ⟨hr, hhr, hmat⟩ := Option.map_eq_some'.mp (c2_hit_proj at2 asn)
  have hgt : MAX_BOUNCES + 1 > MAX_BOUNCES := by omega
  simp only [traceLoop, BvhTree.hitDict, c2state, hhr, hgt, if_true]

/-- The absorbing-metal walk runs to the bounce cap: from `b` bounces with
`b + n = MAX_BOUNCES + 2` it ends in the state with `MAX_BOUNCES + 1`
bounces, sky throughput untouched. -/
theorem c2_loop_run (at2 : EF → EF → EF) (asn : EF → EF) (rand : Nat → Vec3) :
    ∀ (n b : Nat), b + n = MAX_BOUNCES + 2 → b ≤ MAX_BOUNCES + 1 →
    traceLoop (BvhTree.hitDict (Sphere.hitDict at2 asn)) c2tree rand primaryRay
      n (c2state b) = some (c2state (MAX_BOUNCES + 1)) := by
  intro n
  induction n with
  | zero => intro b hn hb; omega
  | succ n ih =>
    intro b hn hb
    rcases Nat.lt_or_ge b (MAX_BOUNCES + 1) with h | h
    · rw [c2_loop_step at2 asn rand n b (by omega)]
      exact ih (b + 1) (by omega) (by omega)
    · have hb1 : b = MAX_BOUNCES + 1 := by omega
      subst hb1
      exact c2_loop_break at2 asn rand n

/-- C2: the claimed Absorbed-state semantics fails.  For the primary ray
into the finalized scene holding only the absorbing metal unit sphere
(`Metal::scattered` always returns `None`) under the constant gray sky
`(1/2,1/2,1/2)`, `trace_color` does not terminate the walk at the
absorbing bounce: the loop re-hits the same point until the bounce cap and
then still adds the sky radiance through the untouched throughput, so the
returned color is the sky color `(1/2,1/2,1/2)` — not black. -/
theorem c2_absorbed_walk_gets_sky (at2 : EF → EF → EF) (asn : EF → EF)
    (rand : Nat → Vec3) :
    (trace_color at2 asn rand grayTex (BvhTree.hitDict (Sphere.hitDict at2 asn))
        primaryRay
        (BvhTree.from_hittables (Sphere.hitDict at2 asn) [unitSphere])).1 =
      Vec3.new (.fin (1/2)) (.fin (1/2)) (.fin (1/2)) ∧
    Vec3.new (.fin (1/2)) (.fin (1/2)) (.fin (1/2)) ≠
      Vec3.new (.fin 0) (.fin 0) (.fin 0) := by
  constructor
  · rw [oneSphereTree_eval]
    unfold trace_color
    rw [show initLoopState primaryRay = c2state 0 from rfl]
    have hrun := c2_loop_run at2 asn rand (MAX_BOUNCES + 2) 0 rfl (by omega)
    simp only [hrun, Option.getD_some]
    norm_num [c2state, grayTex, ConstantTexture.new, Vec3.new, Vec3.add,
      Vec3.mul, EF.add, EF.mul]
  · norm_num [Vec3.new]

/-- C4 counterexample: the bounce cap does not limit the walk to 100
material bounces.  In the absorbing-metal scene (every iteration re-finds
the same hit), the loop processes `MAX_BOUNCES + 1 = 101` material bounces
before the `bounces > MAX_BOUNCES` break fires. -/
theorem c4_bounce_count_exceeds_cap :
    (traceLoop (BvhTree.hitDict (Sphere.hitDict atanStub asinStub)) c2tree
        randStub primaryRay (MAX_BOUNCES + 2) (c2state 0)).map
        (fun st => st.bounces) = some (MAX_BOUNCES + 1) ∧
    ¬(MAX_BOUNCES + 1 ≤ MAX_BOUNCES) := by
  constructor
  · rw [c2_loop_run atanStub asinStub randStub (MAX_BOUNCES + 2) 0 rfl
      (by omega)]
    rfl
  · omega

/-- The bounce loop never exhausts its fuel: starting from a state within
the cap and with enough fuel to reach the break, it returns a final state,
and that state has at most `MAX_BOUNCES + 1` bounces. -/
theorem traceLoop_no_fuel_exhaustion (d : HitDict α) (object : α)
    (rand : Nat → Vec3) (primary : Ray) :
    ∀ (f : Nat) (st : LoopState), st.bounces ≤ MAX_BOUNCES + 1 →
      MAX_BOUNCES + 2 ≤ st.bounces + f →
      ∃ out, traceLoop d object rand primary f st = some out ∧
        out.bounces ≤ MAX_BOUNCES + 1 := by
  intro f
  induction f with
  | zero => intro st h1 h2; omega
  | succ f ih =>
    intro st h1 h2
    rw [traceLoop]
    cases hh : d.hit object st.ray_to_use (.fin F32_HIT_EPS) (.fin F32_MAX) with
    | none => exact ⟨st, rfl, h1⟩
    | some hit =>
      by_cases hb : st.bounces > MAX_BOUNCES
      · simp only [hb, if_true]
        exact ⟨st, rfl, h1⟩
      · simp only [hb, if_false]
        cases hs : Material.scattered (hit.material.getD missingMaterial)
            (rand (st.bounces + 1)) st.ray_to_use hit with
        | none =>
          refine ih _ ?_ ?_
          · show st.bounces + 1 ≤ MAX_BOUNCES + 1
            omega
          · show MAX_BOUNCES + 2 ≤ st.bounces + 1 + f
            omega
        | some tup =>
          obtain ⟨albedo, normal, scattered_ray, pdf⟩ := tup
          refine ih _ ?_ ?_ <;>
            simp only [apply_ite LoopState.bounces, ite_self] <;> omega

/-- C4 (amended): for every scene object, hit dictionary, random stream and
initial ray, the per-sample walk of `trace_color` halts with the fuel
`MAX_BOUNCES + 2` the integrator supplies — the loop returns a final state
rather than exhausting its fuel — and it processes at most
`MAX_BOUNCES + 1 = 101` material bounces (not 100: the break condition
`bounces > MAX_BOUNCES` admits the iteration with `bounces = 100`). -/
theorem c4_trace_loop_terminates (α : Type) (d : HitDict α) (object : α)
    (rand : Nat → Vec3) (primary : Ray) (ray : Ray) :
    ∃ st, traceLoop d object rand primary (MAX_BOUNCES + 2)
        (initLoopState ray) = some st ∧ st.bounces ≤ MAX_BOUNCES + 1 :=
  traceLoop_no_fuel_exhaustion d object rand primary (MAX_BOUNCES + 2)
    (initLoopState ray) (by simp [initLoopState]) (by simp [initLoopState])

/-- `f32::min` keeps the right argument `-∞` as soon as it appears. -/
theorem EF.min_pinf_right (a : EF) (h : a ≠ .nan) : EF.min a .pinf = a := by
  cases a <;> simp_all [EF.min]

/-- `f32::max` keeps its left argument against `-∞` when it is not NaN. -/
theorem EF.max_ninf_right (a : EF) (h : a ≠ .nan) : EF.max a .ninf = a := by
  cases a <;> simp_all [EF.max]

/-- A slab step keeps the running `t_min` away from NaN and `-∞`. -/
theorem slab_fst_ne (s e o d : EF) (acc : EF × EF) (h1 : acc.1 ≠ .nan)
    (h2 : acc.1 ≠ .ninf) :
    (AABB.slab s e o d acc).1 ≠ .nan ∧ (AABB.slab s e o d acc).1 ≠ .ninf := by
  simp only [AABB.slab]
  exact ⟨EF.max_ne_nan _ _ h1, EF.max_ne_ninf _ _ h1 h2⟩

/-- A slab step keeps the running `t_max` away from NaN and `+∞`. -/
theorem slab_snd_ne (s e o d : EF) (acc : EF × EF) (h1 : acc.2 ≠ .nan)
    (h2 : acc.2 ≠ .pinf) :
    (AABB.slab s e o d acc).2 ≠ .nan ∧ (AABB.slab s e o d acc).2 ≠ .pinf := by
  simp only [AABB.slab]
  exact ⟨EF.min_ne_nan _ _ h1, EF.min_ne_pinf _ _ h1 h2⟩

/-- Once the running `t_min` is `+∞`, every further slab step keeps it. -/
theorem slab_fst_pinf (s e o d : EF) (acc : EF × EF) (h : acc.1 = .pinf) :
    (AABB.slab s e o d acc).1 = .pinf := by
  simp only [AABB.slab, h, EF.max_pinf_left]

/-- Once the running `t_max` is `-∞`, every further slab step keeps it. -/
theorem slab_snd_ninf (s e o d : EF) (acc : EF × EF) (h : acc.2 = .ninf) :
    (AABB.slab s e o d acc).2 = .ninf := by
  simp only [AABB.slab, h, EF.min_ninf_left]

/-- The deciding slab step, low side: a zero direction component with the
origin strictly below the slab (`ox < sx ≤ ex`) divides two positive
numbers by zero, both entry and exit become `+∞`, and the running `t_min`
is forced to `+∞`. -/
theorem slab_zero_fst_pinf (sx ex ox : ℚ) (acc : EF × EF) (hse : sx ≤ ex)
    (hlo : ox < sx) :
    (AABB.slab (.fin sx) (.fin ex) (.fin ox) (.fin 0) acc).1 = .pinf := by
  have hne : sx + -ox ≠ 0 := by intro hc; linarith
  have hpos : 0 < sx + -ox := by linarith
  have hne2 : ex + -ox ≠ 0 := by intro hc; linarith
  have hpos2 : 0 < ex + -ox := by linarith
  simp only [AABB.slab, EF.sub_def, EF.sub, EF.neg, EF.add, EF.div_def, EF.div]
  simp [hne, hpos, hne2, hpos2, EF.min, EF.max_pinf_right]

/-- The deciding slab step, high side: a zero direction component with the
origin strictly above the slab (`sx ≤ ex < ox`) divides two negative
numbers by zero, both entry and exit become `-∞`, and the running `t_max`
is forced to `-∞`. -/
theorem slab_zero_snd_ninf (sx ex ox : ℚ) (acc : EF × EF) (hse : sx ≤ ex)
    (hhi : ex < ox) :
    (AABB.slab (.fin sx) (.fin ex) (.fin ox) (.fin 0) acc).2 = .ninf := by
  have hne : sx + -ox ≠ 0 := by intro hc; linarith
  have hneg : ¬(0 < sx + -ox) := by intro hc; linarith
  have hne2 : ex + -ox ≠ 0 := by intro hc; linarith
  have hneg2 : ¬(0 < ex + -ox) := by intro hc; linarith
  simp only [AABB.slab, EF.sub_def, EF.sub, EF.neg, EF.add, EF.div_def, EF.div]
  simp [hne, hneg, hne2, hneg2, EF.max, EF.min_ninf_right]

/-- C5: the AABB slab test is NaN-safe.  First part: a ray whose direction
component is exactly 0 on some axis, with a finite origin component
strictly outside the (finite, ordered) slab of that axis, is rejected by
`AABB::hit` for every finite query interval — whatever the other
coordinates are (even NaN): the deciding axis forces the running interval
empty (`t_min = +∞` or `t_max = -∞`) and no later `min`/`max` can undo it.
Second part: one slab step never turns a non-NaN running `t_min`/`t_max`
into NaN (Rust's `min`/`max` drop NaN), so the running interval never
becomes NaN from non-NaN query bounds. -/
theorem c5_parallel_outside_rejected_and_nan_safe :
    (∀ (b : AABB) (r : Ray) (sx ex ox tmin tmax : ℚ), sx ≤ ex →
      ((r.direction.x = .fin 0 ∧ b.start.x = .fin sx ∧ b.end_.x = .fin ex ∧
          r.origin.x = .fin ox) ∨
        (r.direction.y = .fin 0 ∧ b.start.y = .fin sx ∧ b.end_.y = .fin ex ∧
          r.origin.y = .fin ox) ∨
        (r.direction.z = .fin 0 ∧ b.start.z = .fin sx ∧ b.end_.z = .fin ex ∧
          r.origin.z = .fin ox)) →
      (ox < sx ∨ ex < ox) →
      AABB.hit b r (.fin tmin) (.fin tmax) = none) ∧
    (∀ (s e o d : EF) (acc : EF × EF), acc.1 ≠ .nan → acc.2 ≠ .nan →
      (AABB.slab s e o d acc).1 ≠ .nan ∧ (AABB.slab s e o d acc).2 ≠ .nan) := by
  constructor
  · intro b r sx ex ox tmin tmax hse haxis hout
    simp only [AABB.hit]
    set i1 := AABB.slab b.start.x b.end_.x r.origin.x r.direction.x
      (EF.fin tmin, EF.fin tmax) with hi1
    set i2 := AABB.slab b.start.y b.end_.y r.origin.y r.direction.y i1 with hi2
    set i3 := AABB.slab b.start.z b.end_.z r.origin.z r.direction.z i2 with hi3
    suffices hlt : i3.2.lt i3.1 = true by rw [hlt]; simp
    rcases hout with hlo | hhi
    · have h31 : i3.1 = .pinf := by
        rcases haxis with ⟨hd, hs, he, ho⟩ | ⟨hd, hs, he, ho⟩ | ⟨hd, hs, he, ho⟩
        · have h11 : i1.1 = .pinf := by
            rw [hi1, hd, hs, he, ho]
            exact slab_zero_fst_pinf sx ex ox _ hse hlo
          exact slab_fst_pinf _ _ _ _ _ (slab_fst_pinf _ _ _ _ _ h11)
        · have h21 : i2.1 = .pinf := by
            rw [hi2, hd, hs, he, ho]
            exact slab_zero_fst_pinf sx ex ox _ hse hlo
          exact slab_fst_pinf _ _ _ _ _ h21
        · rw [hi3, hd, hs, he, ho]
          exact slab_zero_fst_pinf sx ex ox _ hse hlo
      have h32 : i3.2 ≠ .nan ∧ i3.2 ≠ .pinf := by
        have b1 := slab_snd_ne b.start.x b.end_.x r.origin.x r.direction.x
          (EF.fin tmin, EF.fin tmax) (by simp) (by simp)
        have b2 := slab_snd_ne b.start.y b.end_.y r.origin.y r.direction.y
          i1 b1.1 b1.2
        exact slab_snd_ne b.start.z b.end_.z r.origin.z r.direction.z
          i2 b2.1 b2.2
      rw [h31]
      exact EF.lt_pinf _ h32.1 h32.2
    · have h32 : i3.2 = .ninf := by
        rcases haxis with ⟨hd, hs, he, ho⟩ | ⟨hd, hs, he, ho⟩ | ⟨hd, hs, he, ho⟩
        · have h12 : i1.2 = .ninf := by
            rw [hi1, hd, hs, he, ho]
            exact slab_zero_snd_ninf sx ex ox _ hse hhi
          exact slab_snd_ninf _ _ _ _ _ (slab_snd_ninf _ _ _ _ _ h12)
        · have h22 : i2.2 = .ninf := by
            rw [hi2, hd, hs, he, ho]
            exact slab_zero_snd_ninf sx ex ox _ hse hhi
          exact slab_snd_ninf _ _ _ _ _ h22
        · rw [hi3, hd, hs, he, ho]
          exact slab_zero_snd_ninf sx ex ox _ hse hhi
      have h31 : i3.1 ≠ .nan ∧ i3.1 ≠ .ninf := by
        have b1 := slab_fst_ne b.start.x b.end_.x r.origin.x r.direction.x
          (EF.fin tmin, EF.fin tmax) (by simp) (by simp)
        have b2 := slab_fst_ne b.start.y b.end_.y r.origin.y r.direction.y
          i1 b1.1 b1.2
        exact slab_fst_ne b.start.z b.end_.z r.origin.z r.direction.z
          i2 b2.1 b2.2
      rw [h32]
      exact EF.ninf_lt _ h31.1 h31.2
  · intro s e o d acc h1 h2
    simp only [AABB.slab]
    exact ⟨EF.max_ne_nan _ _ h1, EF.min_ne_nan _ _ h2⟩

/-- C5 witness: the box `[(0,0,0),(1,1,1)]` is not hit by the ray from
`(5,0,-5)` along `(0,0,1)` (x-component 0, origin outside the x-slab), and
one slab step on a NaN-free interval stays NaN-free. -/
theorem c5_witness :
    AABB.hit ⟨Vec3.new (.fin 0) (.fin 0) (.fin 0),
        Vec3.new (.fin 1) (.fin 1) (.fin 1)⟩
      ⟨Vec3.new (.fin 5) (.fin 0) (.fin (-5)), Vec3.new (.fin 0) (.fin 0) (.fin 1)⟩
      (.fin F32_HIT_EPS) (.fin F32_MAX) = none ∧
    ((AABB.slab (.fin 0) (.fin 1) (.fin 5) (.fin 0)
        (.fin F32_HIT_EPS, .fin F32_MAX)).1 ≠ .nan ∧
      (AABB.slab (.fin 0) (.fin 1) (.fin 5) (.fin 0)
        (.fin F32_HIT_EPS, .fin F32_MAX)).2 ≠ .nan) :=
  ⟨c5_parallel_outside_rejected_and_nan_safe.1 _ _ 0 1 5 F32_HIT_EPS F32_MAX
      (by norm_num) (.inl ⟨rfl, rfl, rfl, rfl⟩) (by norm_num),
    c5_parallel_outside_rejected_and_nan_safe.2 _ _ _ _ _ (by simp) (by simp)⟩

/-- C6: `Sphere::hit` picks the smaller quadratic root `t1 = (-b-√disc)/a`
when it lies in `[t_min, t_max]`, falls back to the larger root
`t2 = (-b+√disc)/a` when `t1` is out of range, and returns `None` when both
are; `t1 ≤ t2` and both satisfy the sphere quadratic
`a·t² + 2b·t + c = 0`.  Stated over `Sphere.hitWithRoot` with the exact
root `s` of the discriminant supplied (`s·s = b² - ac`, `s ≥ 0`), since
`f32::sqrt` has no exact rational counterpart; `a`, `b`, `c` are pinned to
the source's intermediate values by the hypotheses `hA`, `hB`, `hC`.  The
final conjunct is the spec's concrete case: the ray `(0,0,-5) → (0,0,1)`
against the unit sphere at the origin hits at `t = 4` with normal
`(0,0,-1)`. -/
theorem c6_sphere_root_selection (at2 : EF → EF → EF) (asn : EF → EF)
    (sph : Sphere) (ray : Ray)
    (tmin tmax s a b c t1 t2 : ℚ) (res : Option HitResult)
    (hA : ray.direction.dot ray.direction = .fin a)
    (hB : (ray.origin - sph.center).dot ray.direction = .fin b)
    (hC : (ray.origin - sph.center).dot (ray.origin - sph.center) -
      sph.radius * sph.radius = .fin c)
    (hapos : 0 < a) (hs : s * s = b * b - a * c) (hsnn : 0 ≤ s)
    (ht1 : t1 = (-b - s) / a) (ht2 : t2 = (-b + s) / a)
    (hres : res = Sphere.hitWithRoot at2 asn (.fin s) sph ray
      (.fin tmin) (.fin tmax)) :
    (t1 ≤ t2) ∧
    (a * t1 * t1 + 2 * b * t1 + c = 0) ∧
    (a * t2 * t2 + 2 * b * t2 + c = 0) ∧
    ((tmin ≤ t1 ∧ t1 ≤ tmax) →
      res.map (fun h => h.ray_param) = some (.fin t1)) ∧
    (¬(tmin ≤ t1 ∧ t1 ≤ tmax) → (tmin ≤ t2 ∧ t2 ≤ tmax) →
      res.map (fun h => h.ray_param) = some (.fin t2)) ∧
    (¬(tmin ≤ t1 ∧ t1 ≤ tmax) → ¬(tmin ≤ t2 ∧ t2 ≤ tmax) → res = none) ∧
    ((Sphere.hit at2 asn unitSphere primaryRay (.fin F32_HIT_EPS)
        (.fin F32_MAX)).map (fun h => (h.ray_param, h.normal)) =
      some (.fin 4, Vec3.new (.fin 0) (.fin 0) (.fin (-1)))) := by
  have hane : a ≠ 0 := ne_of_gt hapos
  have ht12 : t1 ≤ t2 := by
    rw [ht1, ht2, div_le_div_iff_of_pos_right hapos]
    linarith
  have hq1 : a * t1 * t1 + 2 * b * t1 + c = 0 := by
    rw [ht1]
    field_simp
    nlinarith [hs]
  have hq2 : a * t2 * t2 + 2 * b * t2 + c = 0 := by
    rw [ht2]
    field_simp
    nlinarith [hs]
  have hrootnn : ¬(b * b + -(a * c) < 0) := by nlinarith [mul_self_nonneg s]
  have hrootnn2 : ¬(b * b - a * c < 0) := by nlinarith [mul_self_nonneg s]
  have hT1 : (-b + -s) / a = t1 := by rw [ht1]; ring_nf
  have hT1b : (-b - s) / a = t1 := ht1.symm
  have hT2 : (-b + s) / a = t2 := ht2.symm
  refine ⟨ht12, hq1, hq2, ?_, ?_, ?_, ?_⟩
  · intro hin
    have hn1 : ¬(tmax < t1) := not_lt.mpr hin.2
    have hn2 : ¬(t1 < tmin) := not_lt.mpr hin.1
    rw [hres]
    simp only [Sphere.hitWithRoot, hA, hB, hC]
    simp [EF.mul, EF.sub, EF.add, EF.neg, EF.div, EF.lt, hane,
      hrootnn, hrootnn2, hT1, hT1b, hT2, hn1, hn2]
  · intro hout hin2
    have h1 : tmax < t1 ∨ t1 < tmin := by
      rcases not_and_or.mp hout with h | h
      · exact Or.inr (not_le.mp h)
      · exact Or.inl (not_le.mp h)
    have hn1 : ¬(tmax < t2) := not_lt.mpr hin2.2
    have hn2 : ¬(t2 < tmin) := not_lt.mpr hin2.1
    rw [hres]
    simp only [Sphere.hitWithRoot, hA, hB, hC]
    rcases h1 with h | h <;>
      simp [EF.mul, EF.sub, EF.add, EF.neg, EF.div, EF.lt, hane,
        hrootnn, hrootnn2, hT1, hT1b, hT2, hn1, hn2, h]
  · intro hout1 hout2
    have h1 : tmax < t1 ∨ t1 < tmin := by
      rcases not_and_or.mp hout1 with h | h
      · exact Or.inr (not_le.mp h)
      · exact Or.inl (not_le.mp h)
    have h2 : tmax < t2 ∨ t2 < tmin := by
      rcases not_and_or.mp hout2 with h | h
      · exact Or.inr (not_le.mp h)
      · exact Or.inl (not_le.mp h)
    rw [hres]
    simp only [Sphere.hitWithRoot, hA, hB, hC]
    rcases h1 with h | h <;> rcases h2 with g | g <;>
      simp [EF.mul, EF.sub, EF.add, EF.neg, EF.div, EF.lt, hane,
        hrootnn, hrootnn2, hT1, hT1b, hT2, h, g]
  · norm_num [Sphere.hit, Sphere.hitWithRoot, unitSphere, primaryRay,
      Ray.point_at, Vec3.new, Vec3.add, Vec3.sub, Vec3.dot, Vec3.smul,
      Vec3.divs, EF.min, EF.max, EF.lt, EF.div, EF.sub, EF.add, EF.neg,
      EF.mul, EF.sqrt, F32_HIT_EPS, F32_MAX, ratSqrt_one]

/-- C6 witness: the unit sphere at the origin against the ray
`(0,0,-5) → (0,0,1)` over `[0.0001, f32::MAX]`: `a = 1`, `b = -5`,
`c = 24`, discriminant `1`, roots `4` and `6`; the smaller root `4` is in
range and is reported. -/
theorem c6_witness :
    (4 : ℚ) ≤ 6 ∧
    ((1 : ℚ) * 4 * 4 + 2 * (-5) * 4 + 24 = 0) ∧
    ((1 : ℚ) * 6 * 6 + 2 * (-5) * 6 + 24 = 0) ∧
    ((F32_HIT_EPS ≤ (4 : ℚ) ∧ (4 : ℚ) ≤ F32_MAX) →
      (Sphere.hitWithRoot atanStub asinStub (.fin 1) unitSphere primaryRay
          (.fin F32_HIT_EPS) (.fin F32_MAX)).map (fun h => h.ray_param) =
        some (.fin 4)) ∧
    (¬(F32_HIT_EPS ≤ (4 : ℚ) ∧ (4 : ℚ) ≤ F32_MAX) →
      ((F32_HIT_EPS ≤ (6 : ℚ) ∧ (6 : ℚ) ≤ F32_MAX) →
      (Sphere.hitWithRoot atanStub asinStub (.fin 1) unitSphere primaryRay
          (.fin F32_HIT_EPS) (.fin F32_MAX)).map (fun h => h.ray_param) =
        some (.fin 6))) ∧
    (¬(F32_HIT_EPS ≤ (4 : ℚ) ∧ (4 : ℚ) ≤ F32_MAX) →
      ¬(F32_HIT_EPS ≤ (6 : ℚ) ∧ (6 : ℚ) ≤ F32_MAX) →
      Sphere.hitWithRoot atanStub asinStub (.fin 1) unitSphere primaryRay
          (.fin F32_HIT_EPS) (.fin F32_MAX) = none) ∧
    ((Sphere.hit atanStub asinStub unitSphere primaryRay (.fin F32_HIT_EPS)
        (.fin F32_MAX)).map (fun h => (h.ray_param, h.normal)) =
      some (.fin 4, Vec3.new (.fin 0) (.fin 0) (.fin (-1)))) :=
  c6_sphere_root_selection atanStub asinStub unitSphere primaryRay
    F32_HIT_EPS F32_MAX 1 1 (-5) 24 4 6 _
    (by norm_num [primaryRay, unitSphere, Vec3.dot, Vec3.new, EF.mul, EF.add])
    (by norm_num [primaryRay, unitSphere, Vec3.dot, Vec3.sub, Vec3.new,
      EF.mul, EF.add, EF.sub, EF.neg])
    (by norm_num [primaryRay, unitSphere, Vec3.dot, Vec3.sub, Vec3.new,
      EF.mul, EF.add, EF.sub, EF.neg])
    (by norm_num) (by norm_num) (by norm_num) (by norm_num) (by norm_num)
    rfl

theorem EF.min_fin_fin (a b : ℚ) : EF.min (.fin a) (.fin b) = .fin (a ⊓ b) := by
  simp only [EF.min]
  rw [min_def]
  split <;> rfl

theorem EF.max_fin_fin (a b : ℚ) : EF.max (.fin a) (.fin b) = .fin (a ⊔ b) := by
  simp only [EF.max]
  rw [max_def]
  split <;> rfl

theorem EF.min_nan_left (b : EF) : EF.min .nan b = b := by cases b <;> rfl

theorem EF.min_nan_right (a : EF) : EF.min a .nan = a := by cases a <;> rfl

theorem EF.max_nan_left (b : EF) : EF.max .nan b = b := by cases b <;> rfl

theorem EF.max_nan_right (a : EF) : EF.max a .nan = a := by cases a <;> rfl

theorem EF.min_pinf_left (b : EF) (h : b ≠ .nan) : EF.min .pinf b = b := by
  cases b <;> simp_all [EF.min]

theorem EF.max_ninf_left (b : EF) (h : b ≠ .nan) : EF.max .ninf b = b := by
  cases b <;> simp_all [EF.max]

/-- Rust `f32::min` is commutative (signed zeros are not modelled). -/
theorem EF.min_comm (a b : EF) : EF.min a b = EF.min b a := by
  cases a <;> cases b <;>
    simp [EF.min_fin_fin, EF.min_nan_left, EF.min_nan_right,
      EF.min_ninf_left, EF.min_ninf_right, EF.min_pinf_left,
      EF.min_pinf_right, inf_comm]

/-- Rust `f32::max` is commutative (signed zeros are not modelled). -/
theorem EF.max_comm (a b : EF) : EF.max a b = EF.max b a := by
  cases a <;> cases b <;>
    simp [EF.max_fin_fin, EF.max_nan_left, EF.max_nan_right,
      EF.max_pinf_left, EF.max_pinf_right, EF.max_ninf_left,
      EF.max_ninf_right, sup_comm]

/-- Rust `f32::min` is associative. -/
theorem EF.min_assoc (a b c : EF) :
    EF.min (EF.min a b) c = EF.min a (EF.min b c) := by
  cases a <;> cases b <;> cases c <;>
    simp [EF.min_fin_fin, EF.min_nan_left, EF.min_nan_right,
      EF.min_ninf_left, EF.min_ninf_right, EF.min_pinf_left,
      EF.min_pinf_right, inf_assoc]

/-- Rust `f32::max` is associative. -/
theorem EF.max_assoc (a b c : EF) :
    EF.max (EF.max a b) c = EF.max a (EF.max b c) := by
  cases a <;> cases b <;> cases c <;>
    simp [EF.max_fin_fin, EF.max_nan_left, EF.max_nan_right,
      EF.max_pinf_left, EF.max_pinf_right, EF.max_ninf_left,
      EF.max_ninf_right, sup_assoc]

theorem EF.min_le_left (a b : EF) (ha : a ≠ .nan) (hb : b ≠ .nan) :
    EF.le (EF.min a b) a = true := by
  cases a <;> cases b <;>
    simp_all [EF.min_fin_fin, EF.min_nan_left, EF.min_nan_right,
      EF.min_ninf_left, EF.min_ninf_right, EF.min_pinf_left,
      EF.min_pinf_right, EF.le]

theorem EF.min_le_right (a b : EF) (ha : a ≠ .nan) (hb : b ≠ .nan) :
    EF.le (EF.min a b) b = true := by
  rw [EF.min_comm]
  exact EF.min_le_left b a hb ha

theorem EF.le_max_left (a b : EF) (ha : a ≠ .nan) (hb : b ≠ .nan) :
    EF.le a (EF.max a b) = true := by
  cases a <;> cases b <;>
    simp_all [EF.max_fin_fin, EF.max_nan_left, EF.max_nan_right,
      EF.max_pinf_left, EF.max_pinf_right, EF.max_ninf_left,
      EF.max_ninf_right, EF.le]

theorem EF.le_max_right (a b : EF) (ha : a ≠ .nan) (hb : b ≠ .nan) :
    EF.le b (EF.max a b) = true := by
  rw [EF.max_comm]
  exact EF.le_max_left b a hb ha

theorem EF.le_min_of (c a b : EF) (h1 : EF.le c a = true)
    (h2 : EF.le c b = true) : EF.le c (EF.min a b) = true := by
  cases c <;> cases a <;> cases b <;>
    simp_all [EF.min_fin_fin, EF.min_nan_left, EF.min_nan_right,
      EF.min_ninf_left, EF.min_ninf_right, EF.min_pinf_left,
      EF.min_pinf_right, EF.le, le_inf_iff]

theorem EF.max_le_of (c a b : EF) (h1 : EF.le a c = true)
    (h2 : EF.le b c = true) : EF.le (EF.max a b) c = true := by
  cases c <;> cases a <;> cases b <;>
    simp_all [EF.max_fin_fin, EF.max_nan_left, EF.max_nan_right,
      EF.max_pinf_left, EF.max_pinf_right, EF.max_ninf_left,
      EF.max_ninf_right, EF.le, sup_le_iff]

theorem EF.le_trans_ef (a b c : EF) (h1 : EF.le a b = true)
    (h2 : EF.le b c = true) : EF.le a c = true := by
  cases a <;> cases b <;> cases c <;> simp_all [EF.le] <;> linarith

/-- `min(a,b) ≤ max(b,a)` for non-NaN values (what `AABB::new`'s corner
swizzle produces per axis). -/
theorem EF.min_le_max_swap (a b : EF) (ha : a ≠ .nan) (hb : b ≠ .nan) :
    EF.le (EF.min a b) (EF.max b a) = true := by
  cases a <;> cases b <;>
    simp_all [EF.min_fin_fin, EF.max_fin_fin, EF.min_nan_left,
      EF.min_nan_right, EF.min_ninf_left, EF.min_ninf_right,
      EF.min_pinf_left, EF.min_pinf_right, EF.max_nan_left,
      EF.max_nan_right, EF.max_pinf_left, EF.max_pinf_right,
      EF.max_ninf_left, EF.max_ninf_right, EF.le, inf_le_iff, le_sup_iff]

/-- C8: for NaN-free boxes `A`, `B`, the union `surrounding_box(A,B)`
contains both (per axis its start is `≤` each input's start and its end is
`≥` each input's end); it is the tightest such box (any box containing
both contains it); and `surrounding_box` is commutative and associative
(the last two without any NaN restriction). -/
theorem c8_surrounding_box (A B C D : AABB) (hA : A.nonNan) (hB : B.nonNan) :
    ((AABB.surrounding_box A B).contains A ∧
      (AABB.surrounding_box A B).contains B) ∧
    (C.contains A → C.contains B → C.contains (AABB.surrounding_box A B)) ∧
    AABB.surrounding_box A B = AABB.surrounding_box B A ∧
    AABB.surrounding_box (AABB.surrounding_box A B) D =
      AABB.surrounding_box A (AABB.surrounding_box B D) := by
  obtain ⟨⟨hasx, hasy, hasz⟩, ⟨haex, haey, haez⟩⟩ := hA
  obtain ⟨⟨hbsx, hbsy, hbsz⟩, ⟨hbex, hbey, hbez⟩⟩ := hB
  refine ⟨⟨?_, ?_⟩, ?_, ?_, ?_⟩
  · exact ⟨EF.min_le_left _ _ hasx hbsx, EF.min_le_left _ _ hasy hbsy,
      EF.min_le_left _ _ hasz hbsz, EF.le_max_left _ _ haex hbex,
      EF.le_max_left _ _ haey hbey, EF.le_max_left _ _ haez hbez⟩
  · exact ⟨EF.min_le_right _ _ hasx hbsx, EF.min_le_right _ _ hasy hbsy,
      EF.min_le_right _ _ hasz hbsz, EF.le_max_right _ _ haex hbex,
      EF.le_max_right _ _ haey hbey, EF.le_max_right _ _ haez hbez⟩
  · intro hCA hCB
    exact ⟨EF.le_min_of _ _ _ hCA.1 hCB.1,
      EF.le_min_of _ _ _ hCA.2.1 hCB.2.1,
      EF.le_min_of _ _ _ hCA.2.2.1 hCB.2.2.1,
      EF.max_le_of _ _ _ hCA.2.2.2.1 hCB.2.2.2.1,
      EF.max_le_of _ _ _ hCA.2.2.2.2.1 hCB.2.2.2.2.1,
      EF.max_le_of _ _ _ hCA.2.2.2.2.2 hCB.2.2.2.2.2⟩
  · simp [AABB.surrounding_box, Vec3.new, AABB.mk.injEq, Vec3.mk.injEq,
      EF.min_comm, EF.max_comm]
  · simp [AABB.surrounding_box, Vec3.new, AABB.mk.injEq, Vec3.mk.injEq,
      EF.min_assoc, EF.max_assoc]

/-- C8 witness: the containment, tightest-box and algebra facts at the
concrete boxes `[(0,0,0),(1,1,1)]`, `[(-1,-2,-3),(2,1,0)]`,
`[(-9,-9,-9),(9,9,9)]` and `[(5,5,5),(6,6,6)]`. -/
theorem c8_witness :
    ((AABB.surrounding_box
        ⟨Vec3.new (.fin 0) (.fin 0) (.fin 0), Vec3.new (.fin 1) (.fin 1) (.fin 1)⟩
        ⟨Vec3.new (.fin (-1)) (.fin (-2)) (.fin (-3)),
          Vec3.new (.fin 2) (.fin 1) (.fin 0)⟩).contains
        ⟨Vec3.new (.fin 0) (.fin 0) (.fin 0), Vec3.new (.fin 1) (.fin 1) (.fin 1)⟩ ∧
      (AABB.surrounding_box
        ⟨Vec3.new (.fin 0) (.fin 0) (.fin 0), Vec3.new (.fin 1) (.fin 1) (.fin 1)⟩
        ⟨Vec3.new (.fin (-1)) (.fin (-2)) (.fin (-3)),
          Vec3.new (.fin 2) (.fin 1) (.fin 0)⟩).contains
        ⟨Vec3.new (.fin (-1)) (.fin (-2)) (.fin (-3)),
          Vec3.new (.fin 2) (.fin 1) (.fin 0)⟩) ∧
    ((⟨Vec3.new (.fin (-9)) (.fin (-9)) (.fin (-9)),
        Vec3.new (.fin 9) (.fin 9) (.fin 9)⟩ : AABB).contains
        ⟨Vec3.new (.fin 0) (.fin 0) (.fin 0), Vec3.new (.fin 1) (.fin 1) (.fin 1)⟩ →
      (⟨Vec3.new (.fin (-9)) (.fin (-9)) (.fin (-9)),
        Vec3.new (.fin 9) (.fin 9) (.fin 9)⟩ : AABB).contains
        ⟨Vec3.new (.fin (-1)) (.fin (-2)) (.fin (-3)),
          Vec3.new (.fin 2) (.fin 1) (.fin 0)⟩ →
      (⟨Vec3.new (.fin (-9)) (.fin (-9)) (.fin (-9)),
        Vec3.new (.fin 9) (.fin 9) (.fin 9)⟩ : AABB).contains
        (AABB.surrounding_box
          ⟨Vec3.new (.fin 0) (.fin 0) (.fin 0), Vec3.new (.fin 1) (.fin 1) (.fin 1)⟩
          ⟨Vec3.new (.fin (-1)) (.fin (-2)) (.fin (-3)),
            Vec3.new (.fin 2) (.fin 1) (.fin 0)⟩)) ∧
    AABB.surrounding_box
        ⟨Vec3.new (.fin 0) (.fin 0) (.fin 0), Vec3.new (.fin 1) (.fin 1) (.fin 1)⟩
        ⟨Vec3.new (.fin (-1)) (.fin (-2)) (.fin (-3)),
          Vec3.new (.fin 2) (.fin 1) (.fin 0)⟩ =
      AABB.surrounding_box
        ⟨Vec3.new (.fin (-1)) (.fin (-2)) (.fin (-3)),
          Vec3.new (.fin 2) (.fin 1) (.fin 0)⟩
        ⟨Vec3.new (.fin 0) (.fin 0) (.fin 0), Vec3.new (.fin 1) (.fin 1) (.fin 1)⟩ ∧
    AABB.surrounding_box
        (AABB.surrounding_box
          ⟨Vec3.new (.fin 0) (.fin 0) (.fin 0), Vec3.new (.fin 1) (.fin 1) (.fin 1)⟩
          ⟨Vec3.new (.fin (-1)) (.fin (-2)) (.fin (-3)),
            Vec3.new (.fin 2) (.fin 1) (.fin 0)⟩)
        ⟨Vec3.new (.fin 5) (.fin 5) (.fin 5), Vec3.new (.fin 6) (.fin 6) (.fin 6)⟩ =
      AABB.surrounding_box
        ⟨Vec3.new (.fin 0) (.fin 0) (.fin 0), Vec3.new (.fin 1) (.fin 1) (.fin 1)⟩
        (AABB.surrounding_box
          ⟨Vec3.new (.fin (-1)) (.fin (-2)) (.fin (-3)),
            Vec3.new (.fin 2) (.fin 1) (.fin 0)⟩
          ⟨Vec3.new (.fin 5) (.fin 5) (.fin 5),
            Vec3.new (.fin 6) (.fin 6) (.fin 6)⟩) :=
  c8_surrounding_box
    ⟨Vec3.new (.fin 0) (.fin 0) (.fin 0), Vec3.new (.fin 1) (.fin 1) (.fin 1)⟩
    ⟨Vec3.new (.fin (-1)) (.fin (-2)) (.fin (-3)), Vec3.new (.fin 2) (.fin 1) (.fin 0)⟩
    ⟨Vec3.new (.fin (-9)) (.fin (-9)) (.fin (-9)), Vec3.new (.fin 9) (.fin 9) (.fin 9)⟩
    ⟨Vec3.new (.fin 5) (.fin 5) (.fin 5), Vec3.new (.fin 6) (.fin 6) (.fin 6)⟩
    (by decide) (by decide)

/-- C10: `AABB::new` establishes the box invariant `start[i] ≤ end[i]` for
every pair of NaN-free corner arguments, including reversed ones (it takes
the per-axis `min` for `start` and `max` for `end`), and
`surrounding_box` preserves the invariant on NaN-free boxes. -/
theorem c10_aabb_new_invariant (a b : Vec3) (A B : AABB)
    (hva : a.nonNan) (hvb : b.nonNan)
    (hA : A.invariant) (hB : B.invariant) (hAn : A.nonNan) (hBn : B.nonNan) :
    (AABB.new a b).invariant ∧ (AABB.surrounding_box A B).invariant := by
  constructor
  · exact ⟨EF.min_le_max_swap _ _ hva.1 hvb.1,
      EF.min_le_max_swap _ _ hva.2.1 hvb.2.1,
      EF.min_le_max_swap _ _ hva.2.2 hvb.2.2⟩
  · refine ⟨?_, ?_, ?_⟩
    · exact EF.le_trans_ef _ _ _ (EF.min_le_left _ _ hAn.1.1 hBn.1.1)
        (EF.le_trans_ef _ _ _ hA.1 (EF.le_max_left _ _ hAn.2.1 hBn.2.1))
    · exact EF.le_trans_ef _ _ _ (EF.min_le_left _ _ hAn.1.2.1 hBn.1.2.1)
        (EF.le_trans_ef _ _ _ hA.2.1 (EF.le_max_left _ _ hAn.2.2.1 hBn.2.2.1))
    · exact EF.le_trans_ef _ _ _ (EF.min_le_left _ _ hAn.1.2.2 hBn.1.2.2)
        (EF.le_trans_ef _ _ _ hA.2.2 (EF.le_max_left _ _ hAn.2.2.2 hBn.2.2.2))

/-- C10 witness: corners given in reversed order on every axis,
`(5,7,9)`/`(1,2,3)`, produce the valid box `[(1,2,3),(5,7,9)]`, and the
union of two concrete valid boxes is valid. -/
theorem c10_witness :
    (AABB.new (Vec3.new (.fin 5) (.fin 7) (.fin 9))
      (Vec3.new (.fin 1) (.fin 2) (.fin 3))).invariant ∧
    (AABB.surrounding_box
      ⟨Vec3.new (.fin 0) (.fin 0) (.fin 0), Vec3.new (.fin 1) (.fin 1) (.fin 1)⟩
      ⟨Vec3.new (.fin (-1)) (.fin (-2)) (.fin (-3)),
        Vec3.new (.fin 2) (.fin 1) (.fin 0)⟩).invariant :=
  c10_aabb_new_invariant (Vec3.new (.fin 5) (.fin 7) (.fin 9))
    (Vec3.new (.fin 1) (.fin 2) (.fin 3))
    ⟨Vec3.new (.fin 0) (.fin 0) (.fin 0), Vec3.new (.fin 1) (.fin 1) (.fin 1)⟩
    ⟨Vec3.new (.fin (-1)) (.fin (-2)) (.fin (-3)), Vec3.new (.fin 2) (.fin 1) (.fin 0)⟩
    (by decide) (by decide) (by decide) (by decide) (by decide) (by decide)

/-- The BVH built from the single far-off sphere: one leaf over the box
`[(-1,99,-1),(1,101,1)]`. -/
theorem farSphereTree_eval :
    BvhTree.from_hittables sphereDict [farSphere] =
      ⟨#[⟨AABB.new (Vec3.new (.fin (-1)) (.fin 99) (.fin (-1)))
          (Vec3.new (.fin 1) (.fin 101) (.fin 1)), 0, 1⟩], #[farSphere]⟩ := by
  norm_num [BvhTree.from_hittables, BvhTree.build_subtree, listBoundingBox,
    Sphere.bounding_box, sphereDict, Sphere.hitDict, farSphere, AABB.new,
    AABB.longest_axis, sortBy, insertSorted, EF.min, EF.max, EF.lt,
    Vec3.new, Vec3.add, Vec3.sub, EF.add, EF.sub, EF.neg, emptyBB]

/-- C9 counterexample: `render_pixel` writes the averaged values without
clamping.  For the 1×1, 1-sample tracer whose only sphere misses the
camera ray, under the HDR sky `(2,2,2)`, the three floats written into the
pixel's color buffer are all `2`, outside `[0,1]` (`set_pixel`, which does
clamp, is never called by `render_pixel`). -/
theorem c9_render_pixel_unclamped :
    (render_pixel atanStub asinStub randStub zeroEF zeroEF zeroDisk c9tracer
        sphereDict 0 1 [.fin 0, .fin 0, .fin 0] [.fin 0, .fin 0, .fin 0]
        [.fin 0, .fin 0, .fin 0] [.fin 0, .fin 0, .fin 0]).1 =
      [.fin 2, .fin 2, .fin 2] ∧ ¬((2 : ℚ) ≤ 1) := by
  constructor
  · rw [show c9tracer = ⟨1, 1, 1, false, c9camera, [], brightTex,
      some (BvhTree.from_hittables sphereDict [farSphere]), none⟩ from rfl,
      farSphereTree_eval]
    norm_num [render_pixel, renderSamples, trace_color, traceLoop,
      initLoopState, MAX_BOUNCES, Camera.get_ray, c9camera, brightTex,
      ConstantTexture.new, Ray.new, zeroEF, zeroDisk, randStub,
      BvhTree.hitDict, BvhTree.hit, BvhTree.hit_node, AABB.new, AABB.hit,
      AABB.slab, sphereDict, Sphere.hitDict, Sphere.hit, Sphere.hitWithRoot,
      farSphere, Ray.point_at, Vec3.rgb, Vec3.new, Vec3.add, Vec3.sub,
      Vec3.dot, Vec3.smul, Vec3.mul, Vec3.divs, Vec3.neg,
      EF.min, EF.max, EF.lt, EF.div, EF.sub, EF.add, EF.neg, EF.mul,
      F32_HIT_EPS, F32_MAX]
  · norm_num

/-- Each channel written by `set_pixel` — `v.min(1.0).max(0.0)` — lies in
`[0,1]`, whatever `v` is (finite, infinite or NaN: Rust's NaN-dropping
`min`/`max` turn NaN into 1). -/
theorem EF.clamp01 (x : EF) :
    EF.le (.fin 0) (EF.max (EF.min x (.fin 1)) (.fin 0)) = true ∧
    EF.le (EF.max (EF.min x (.fin 1)) (.fin 0)) (.fin 1) = true := by
  cases x <;>
    simp [EF.min_fin_fin, EF.max_fin_fin, EF.min_nan_left, EF.min_pinf_left,
      EF.min_ninf_left, EF.max_ninf_left, EF.max_fin_fin, EF.le,
      le_sup_iff, sup_le_iff, inf_le_right]

/-- C9 (amended): the `[0,1]` guarantee holds for `set_pixel`'s writes (not
`render_pixel`'s): after `set_pixel`, each of the three floats it wrote for
the pixel lies in `[0,1]`, for every input color. -/
theorem c9_set_pixel_clamps (α : Type) (tr : PathTracer α) (buf : List EF)
    (x y : Nat) (color : Vec3)
    (h : x * 3 + y * (tr.width * 3) + 2 < buf.length) :
    (EF.le (.fin 0) ((set_pixel tr buf x y color).getD
        (0 + (x * 3 + y * (tr.width * 3))) (.fin 0)) = true ∧
      EF.le ((set_pixel tr buf x y color).getD
        (0 + (x * 3 + y * (tr.width * 3))) (.fin 0)) (.fin 1) = true) ∧
    (EF.le (.fin 0) ((set_pixel tr buf x y color).getD
        (1 + (x * 3 + y * (tr.width * 3))) (.fin 0)) = true ∧
      EF.le ((set_pixel tr buf x y color).getD
        (1 + (x * 3 + y * (tr.width * 3))) (.fin 0)) (.fin 1) = true) ∧
    (EF.le (.fin 0) ((set_pixel tr buf x y color).getD
        (2 + (x * 3 + y * (tr.width * 3))) (.fin 0)) = true ∧
      EF.le ((set_pixel tr buf x y color).getD
        (2 + (x * 3 + y * (tr.width * 3))) (.fin 0)) (.fin 1) = true) := by
  have h0 : 0 + (x * 3 + y * (tr.width * 3)) < buf.length := by omega
  have h0b : x * 3 + y * (tr.width * 3) < buf.length := by omega
  have h1 : 1 + (x * 3 + y * (tr.width * 3)) < buf.length := by omega
  have h2 : 2 + (x * 3 + y * (tr.width * 3)) < buf.length := by omega
  have hne01 : 0 + (x * 3 + y * (tr.width * 3)) ≠
    1 + (x * 3 + y * (tr.width * 3)) := by omega
  have hne02 : 0 + (x * 3 + y * (tr.width * 3)) ≠
    2 + (x * 3 + y * (tr.width * 3)) := by omega
  have hne12 : 1 + (x * 3 + y * (tr.width * 3)) ≠
    2 + (x * 3 + y * (tr.width * 3)) := by omega
  refine ⟨?_, ?_, ?_⟩ <;>
    simp [set_pixel, List.getD_eq_getElem?_getD, List.getElem?_set,
      List.length_set, h0, h0b, h1, h2, hne01, hne02, hne12,
      Ne.symm hne01, Ne.symm hne02, Ne.symm hne12,
      EF.clamp01 color.x, EF.clamp01 color.y, EF.clamp01 color.z]

/-- C9 witness: `set_pixel` on a 3-float buffer at pixel `(0,0)` with the
out-of-range color `(5, -∞, NaN)` writes three values inside `[0,1]`. -/
theorem c9_set_pixel_clamps_witness :
    (EF.le (.fin 0) ((set_pixel c9tracer [.fin 0, .fin 0, .fin 0] 0 0
        (Vec3.new (.fin 5) .ninf .nan)).getD
        (0 + (0 * 3 + 0 * (c9tracer.width * 3))) (.fin 0)) = true ∧
      EF.le ((set_pixel c9tracer [.fin 0, .fin 0, .fin 0] 0 0
        (Vec3.new (.fin 5) .ninf .nan)).getD
        (0 + (0 * 3 + 0 * (c9tracer.width * 3))) (.fin 0)) (.fin 1) = true) ∧
    (EF.le (.fin 0) ((set_pixel c9tracer [.fin 0, .fin 0, .fin 0] 0 0
        (Vec3.new (.fin 5) .ninf .nan)).getD
        (1 + (0 * 3 + 0 * (c9tracer.width * 3))) (.fin 0)) = true ∧
      EF.le ((set_pixel c9tracer [.fin 0, .fin 0, .fin 0] 0 0
        (Vec3.new (.fin 5) .ninf .nan)).getD
        (1 + (0 * 3 + 0 * (c9tracer.width * 3))) (.fin 0)) (.fin 1) = true) ∧
    (EF.le (.fin 0) ((set_pixel c9tracer [.fin 0, .fin 0, .fin 0] 0 0
        (Vec3.new (.fin 5) .ninf .nan)).getD
        (2 + (0 * 3 + 0 * (c9tracer.width * 3))) (.fin 0)) = true ∧
      EF.le ((set_pixel c9tracer [.fin 0, .fin 0, .fin 0] 0 0
        (Vec3.new (.fin 5) .ninf .nan)).getD
        (2 + (0 * 3 + 0 * (c9tracer.width * 3))) (.fin 0)) (.fin 1) = true) :=
  c9_set_pixel_clamps Sphere c9tracer [.fin 0, .fin 0, .fin 0] 0 0
    (Vec3.new (.fin 5) .ninf .nan) (by norm_num [c9tracer])

end Rustrace